import Mathlib

/-!
Verification development for the MultiProtocolDataCollector backend.

Shallow embedding of the Python sources under src/backend:
- ssh-collector/app.py        (SSHCollector and its HTTP routes)
- netmiko-ssh-collector/app.py (NetmikoSSHCollector and its HTTP routes)
- api-gateway/app.py          (proxy_request)
- snmp-collector/app.py       (SNMPCollector.batch_collect)
- task-scheduler/app.py       (TaskScheduler, together with the semantics of
  the third-party schedule library it drives)

Conventions: machine-level protocol handles (paramiko clients, netmiko
connections) are abstract Nat identifiers handed out by an allocator; the
outcome of real network I/O is a parameter (an oracle) of each operation, so
every behaviour of the environment is quantified over.  Python dicts are
insertion-ordered association lists; dict assignment replaces the first
matching key in place, exactly as CPython preserves insertion order on update.
-/

namespace MPDC

/-! ## Python dict primitives (insertion-ordered association list) -/

/-- d.get(k) / d[k] lookup: first entry with the key. -/
def dictGet {α : Type} : List (String × α) → String → Option α
  | [], _ => none
  | (k0, v0) :: rest, k => if k0 = k then some v0 else dictGet rest k

/-- d[k] = v: replace in place when the key exists (CPython keeps the
insertion position), append otherwise. -/
def dictInsert {α : Type} : List (String × α) → String → α → List (String × α)
  | [], k, v => [(k, v)]
  | (k0, v0) :: rest, k, v =>
      if k0 = k then (k, v) :: rest else (k0, v0) :: dictInsert rest k v

/-- d.pop(k, None): the dict without the entry, and the removed value. -/
def dictPop {α : Type} : List (String × α) → String → List (String × α) × Option α
  | [], _ => ([], none)
  | (k0, v0) :: rest, k =>
      if k0 = k then (rest, some v0)
      else
        let r := dictPop rest k
        ((k0, v0) :: r.1, r.2)

/-- In-place update of the value under a key (d[k].field = v); identity when
the key is absent — call sites guard presence separately, mirroring the
KeyError paths of the source. -/
def dictModify {α : Type} : List (String × α) → String → (α → α) → List (String × α)
  | [], _, _ => []
  | (k0, v0) :: rest, k, f =>
      if k0 = k then (k0, f v0) :: rest else (k0, v0) :: dictModify rest k f

/-- Naive substring test (used to state what an error body mentions). -/
def charsStartWith : List Char → List Char → Bool
  | _, [] => true
  | [], _ :: _ => false
  | c :: cs, d :: ds => c = d && charsStartWith cs ds

def charsContain : List Char → List Char → Bool
  | l, sub =>
      match l with
      | [] => sub.isEmpty
      | _ :: t => charsStartWith l sub || charsContain t sub

def strContainsSub (s sub : String) : Bool :=
  charsContain s.toList sub.toList

/-! ## SSH collector (src/backend/ssh-collector/app.py) -/

/-- Registry state of one SSHCollector instance: active_connections maps the
connection id to the paramiko client (an abstract handle), nextHandle is the
allocator for fresh protocol handles, closed records every handle whose
close() call completed. -/
structure RegState where
  active : List (String × Nat)
  nextHandle : Nat
  closed : List Nat
  deriving Repr, DecidableEq

def emptyReg : RegState := ⟨[], 0, []⟩

/-- Outcome of paramiko client.connect (network oracle). -/
inductive ConnectOutcome
  | ok
  | raise (msg : String)
  deriving Repr, DecidableEq

/-- SSHCollector.connect, lines 33-53.  On a successful protocol connect the
fresh client is stored under host:port:username — a plain dict assignment
that replaces any previous entry without closing it.  Returns
(connection_id, None) on success and (None, str(e)) on failure, modelled as
Except. -/
def sshConnect (st : RegState) (host : String) (port : Nat) (username : String)
    (oc : ConnectOutcome) : RegState × Except String String :=
  match oc with
  | .raise e => (st, .error e)
  | .ok =>
      let connection_id := host ++ ":" ++ toString port ++ ":" ++ username
      let client := st.nextHandle
      ({ st with
          active := dictInsert st.active connection_id client
          nextHandle := st.nextHandle + 1 },
        .ok connection_id)

/-- Result payload of one exec_command round trip. -/
structure CmdResult where
  output : String
  errOut : String
  exit_status : Nat
  deriving Repr, DecidableEq

/-- Outcome of client.exec_command and the stream reads (network oracle). -/
inductive ExecOutcome
  | ok (r : CmdResult)
  | raise (msg : String)
  deriving Repr, DecidableEq

def msgConnNotFound : String := "Connection not found"

/-- SSHCollector.execute_command, lines 55-78.  Looks the client up; an
absent key yields the error string Connection not found, every raised
protocol exception is caught and returned as its message.  The registry is
not mutated. -/
def execute_command (st : RegState) (connection_id : String)
    (oc : ExecOutcome) : Except String CmdResult :=
  match dictGet st.active connection_id with
  | none => .error msgConnNotFound
  | some _ =>
      match oc with
      | .ok r => .ok r
      | .raise m => .error m

/-- SSHCollector.disconnect, lines 80-92.  Pops the entry under the lock
first, then closes the handle; a close that raises is caught and turns into
a False return, with the entry already gone.  closeRaises is the oracle for
whether client.close() raises. -/
def sshDisconnect (st : RegState) (connection_id : String)
    (closeRaises : Bool) : RegState × Bool :=
  let popped := dictPop st.active connection_id
  let st1 := { st with active := popped.1 }
  match popped.2 with
  | none => (st1, false)
  | some client =>
      if closeRaises then (st1, false)
      else ({ st1 with closed := client :: st1.closed }, true)

/-! HTTP routes of the ssh collector. -/

/-- JSON body of POST /connect; a field is present iff the Option is some. -/
structure ConnectReq where
  host : Option String
  port : Option Nat
  username : Option String
  password : Option String
  timeout : Option Nat
  deriving Repr, DecidableEq

inductive ConnectBody
  | errBody (error : String)
  | okBody (connection_id : String)
  deriving Repr, DecidableEq

def msgMissingFields : String := "Missing required fields"

/-- Route POST /connect, lines 105-129: checks host, port, username,
password are all present (else 400 with the fixed generic message), then
delegates to SSHCollector.connect; a connect error is surfaced as 500. -/
def connectRoute (st : RegState) (req : ConnectReq) (oc : ConnectOutcome) :
    RegState × Nat × ConnectBody :=
  match req.host, req.port, req.username, req.password with
  | some h, some p, some u, some _ =>
      match sshConnect st h p u oc with
      | (st1, .ok cid) => (st1, 200, .okBody cid)
      | (st1, .error e) => (st1, 500, .errBody e)
  | _, _, _, _ => (st, 400, .errBody msgMissingFields)

structure ExecuteReq where
  connection_id : Option String
  command : Option String
  deriving Repr, DecidableEq

inductive ExecuteBody
  | errBody (error : String)
  | okBody (r : CmdResult)
  deriving Repr, DecidableEq

def msgMissingConnCmd : String := "Missing connection_id or command"

/-- Route POST /execute, lines 131-147: 400 when a field is missing, and
every error coming back from execute_command — including the unknown
connection case — is returned with status 500. -/
def executeRoute (st : RegState) (req : ExecuteReq) (oc : ExecOutcome) :
    Nat × ExecuteBody :=
  match req.connection_id, req.command with
  | some cid, some _ =>
      match execute_command st cid oc with
      | .ok r => (200, .okBody r)
      | .error e => (500, .errBody e)
  | _, _ => (400, .errBody msgMissingConnCmd)

structure DisconnectReq where
  connection_id : Option String
  deriving Repr, DecidableEq

inductive DisconnectBody
  | errBody (error : String)
  | okBody
  deriving Repr, DecidableEq

def msgMissingConnId : String := "Missing connection_id"

/-- Route POST /disconnect, lines 149-165: 400 on a missing field, 200 when
the collector returned True, otherwise 404 Connection not found. -/
def disconnectRoute (st : RegState) (req : DisconnectReq)
    (closeRaises : Bool) : RegState × Nat × DisconnectBody :=
  match req.connection_id with
  | none => (st, 400, .errBody msgMissingConnId)
  | some cid =>
      match sshDisconnect st cid closeRaises with
      | (st1, true) => (st1, 200, .okBody)
      | (st1, false) => (st1, 404, .errBody msgConnNotFound)

/-! ## Netmiko collector (src/backend/netmiko-ssh-collector/app.py) -/

/-- Device config fields of the netmiko connect request that the model
tracks (the remaining keys are forwarded opaquely). -/
structure NetmikoReq where
  device_type : Option String
  host : Option String
  port : Option Nat
  username : Option String
  password : Option String
  deriving Repr, DecidableEq

/-- One entry of netmiko active_connections: the live connection object plus
the request it was created from. -/
structure NetmikoEntry where
  connection : Nat
  device_config : NetmikoReq
  created_at : Nat
  deriving Repr, DecidableEq

structure NetmikoState where
  active : List (String × NetmikoEntry)
  nextHandle : Nat
  closed : List Nat
  deriving Repr, DecidableEq

def emptyNetmiko : NetmikoState := ⟨[], 0, []⟩

def defaultDeviceType : String := "cisco_ios"

/-- Outcome of netmiko ConnectHandler (network oracle), with the three
exception classes the source distinguishes. -/
inductive NetmikoConnectOutcome
  | ok
  | timeoutExn (msg : String)
  | authExn (msg : String)
  | otherExn (msg : String)
  deriving Repr, DecidableEq

/-- NetmikoSSHCollector.connect, lines 32-75.  The fresh connection is
stored under host:port:username:device_type by plain dict assignment —
replacing a previous live entry without disconnecting it. -/
def netmikoConnect (st : NetmikoState) (req : NetmikoReq) (now : Nat)
    (oc : NetmikoConnectOutcome) : NetmikoState × Except String String :=
  match oc with
  | .timeoutExn m => (st, .error ("Connection timeout: " ++ m))
  | .authExn m => (st, .error ("Authentication failed: " ++ m))
  | .otherExn m => (st, .error m)
  | .ok =>
      let host := (req.host).getD ""
      let port := (req.port).getD 22
      let username := (req.username).getD ""
      let device_type := (req.device_type).getD defaultDeviceType
      let connection_id :=
        host ++ ":" ++ toString port ++ ":" ++ username ++ ":" ++ device_type
      ({ st with
          active := dictInsert st.active connection_id
            ⟨st.nextHandle, req, now⟩
          nextHandle := st.nextHandle + 1 },
        .ok connection_id)

/-- NetmikoSSHCollector.disconnect, lines 133-147: pop under the lock, then
connection.disconnect(); any exception is caught and yields False, the entry
being already removed. -/
def netmikoDisconnect (st : NetmikoState) (connection_id : String)
    (closeRaises : Bool) : NetmikoState × Bool :=
  let popped := dictPop st.active connection_id
  let st1 := { st with active := popped.1 }
  match popped.2 with
  | none => (st1, false)
  | some entry =>
      if closeRaises then (st1, false)
      else ({ st1 with closed := entry.connection :: st1.closed }, true)

def msgMissingNetmikoFields : String :=
  "Missing required fields: host, username, password"

/-- Route POST /connect of the netmiko collector, lines 189-207: requires
host, username, password (port is optional), answering 400 with a body that
lists all three required fields when any is missing. -/
def netmikoConnectRoute (st : NetmikoState) (req : NetmikoReq) (now : Nat)
    (oc : NetmikoConnectOutcome) : NetmikoState × Nat × ConnectBody :=
  match req.host, req.username, req.password with
  | some _, some _, some _ =>
      match netmikoConnect st req now oc with
      | (st1, .ok cid) => (st1, 200, .okBody cid)
      | (st1, .error e) => (st1, 500, .errBody e)
  | _, _, _ => (st, 400, .errBody msgMissingNetmikoFields)

/-! ## API gateway (src/backend/api-gateway/app.py) -/

/-- The static service registry, lines 27-34. -/
def SERVICES : List (String × String) :=
  [("ssh", "http://localhost:8010"),
   ("api", "http://localhost:8020"),
   ("snmp", "http://localhost:8030"),
   ("netmiko-ssh", "http://localhost:8021"),
   ("go-ssh", "http://localhost:8022"),
   ("task-scheduler", "http://localhost:8040")]

/-- A JSON document moved through the proxy; err is the gateway-built error
object, json is an opaque backend document. -/
inductive GwBody
  | json (v : Nat)
  | errMsg (error : String)
  deriving Repr, DecidableEq

/-- One outbound request the gateway issued, with the timeout it passed to
the requests call. -/
structure IssuedReq where
  url : String
  timeoutSec : Nat
  deriving Repr, DecidableEq

/-- Reply of the physical backend: a response, or a raised
requests.exceptions.RequestException (unreachable, timed out, ...). -/
inductive BackendReply
  | reply (status : Nat) (body : GwBody)
  | raiseExn
  deriving Repr, DecidableEq

/-- proxy_request, lines 48-71.  Unknown service name: 404 built locally.
Otherwise one request is issued against the physical endpoint with
timeout 30; a RequestException yields 503, a reply is passed back with its
status code and (JSON) body unchanged.  The second component lists every
request actually issued, so absence of network I/O is observable. -/
def proxy_request (service_name path : String) (backend : IssuedReq → BackendReply) :
    (Nat × GwBody) × List IssuedReq :=
  match dictGet SERVICES service_name with
  | none => ((404, .errMsg ("Service " ++ service_name ++ " not found")), [])
  | some base =>
      let req : IssuedReq := ⟨base ++ "/" ++ path, 30⟩
      match backend req with
      | .reply c b => ((c, b), [req])
      | .raiseExn =>
          ((503, .errMsg ("Service " ++ service_name ++ " unavailable")), [req])

/-! ## SNMP collector (src/backend/snmp-collector/app.py) -/

/-- One entry of the configs array of POST /batch-collect; an absent field
is none. -/
structure SnmpConfig where
  operation : Option String
  host : Option String
  community : Option String
  oid : Option String
  port : Option Nat
  timeout : Option Nat
  deriving Repr, DecidableEq

def opGet : String := "get"
def opWalk : String := "walk"

/-- config.get(operation, get) -/
def snmpOp (c : SnmpConfig) : String := (c.operation).getD opGet

/-- Outcome of get_snmp_data / walk_snmp_data for one config: those
functions catch every exception themselves and return (result, None) or
(None, error), never raising. -/
inductive SnmpOutcome
  | ok (payload : Nat)
  | err (msg : String)
  deriving Repr, DecidableEq

/-- One element of the results array built by batch_collect: the
originating config plus a result key or an error key. -/
structure BatchEntry where
  config : SnmpConfig
  result : Option Nat
  error : Option String
  deriving Repr, DecidableEq

def msgKeyErrorHost : String := "KeyError: host"
def msgKeyErrorCommunity : String := "KeyError: community"
def msgKeyErrorOid : String := "KeyError: oid"

/-- SNMPCollector.batch_collect, lines 107-147.  For each config the
operation defaults to get; get and walk read config[host],
config[community], config[oid] with bare subscripts — a missing key raises
a KeyError out of the whole call (modelled as Except.error, surfaced by
Flask as HTTP 500).  An unknown operation produces an error entry.  The
network outcome of each get/walk is the oracle env. -/
def batch_collect (env : SnmpConfig → SnmpOutcome) :
    List SnmpConfig → Except String (List BatchEntry)
  | [] => .ok []
  | c :: rest =>
      let op := snmpOp c
      if op = opGet ∨ op = opWalk then
        match c.host, c.community, c.oid with
        | none, _, _ => .error msgKeyErrorHost
        | some _, none, _ => .error msgKeyErrorCommunity
        | some _, some _, none => .error msgKeyErrorOid
        | some _, some _, some _ =>
            let entry : BatchEntry :=
              match env c with
              | .ok p => ⟨c, some p, none⟩
              | .err e => ⟨c, none, some e⟩
            (batch_collect env rest).map (fun l => entry :: l)
      else
        (batch_collect env rest).map
          (fun l => (⟨c, none, some ("Unknown operation: " ++ op)⟩ : BatchEntry) :: l)

/-! ## Task scheduler (src/backend/task-scheduler/app.py)

The scheduler drives the third-party schedule library: add_task registers a
job via schedule.every(v).unit.do(_execute_task, task_id); run_scheduler is
a single thread looping schedule.run_pending(); time.sleep(1).  The model
below embeds both the TaskScheduler code and the relevant semantics of that
library: a job is created with next_run = now + period, run_pending runs a
due job synchronously in the scheduler thread, and next_run is recomputed as
now + period only after the job function has returned; an exception escaping
the job function propagates and kills the scheduler thread.  schedule.clear
with a tag removes exactly the jobs carrying that tag — and this code never
tags its jobs.

The state machine interleaves the single scheduler thread (tickFree says it
is at the top of its loop; running holds the dispatch unit it is currently
inside, with a program counter over the statements of _execute_task, each
lock-protected block being one atomic step) with the Flask handler threads
(task creation and removal can step at any instant) and the ambient clock
(logical seconds, advancing at any instant).  Real network time inside
_call_service is represented by clock steps interleaved with the dispatch.
The lastBegin field of a job is ghost instrumentation recording the begin
time of its most recent firing; no step guard reads it. -/

def uSeconds : String := "seconds"
def uMinutes : String := "minutes"
def uHours : String := "hours"
def uDays : String := "days"

def stScheduled : String := "scheduled"
def stRunning : String := "running"
def stCompleted : String := "completed"
def stFailed : String := "failed"

/-- The part of the task config the scheduler itself interprets,
lines 57-58: interval_type defaults to minutes, interval_value to 5. -/
structure TaskConfig where
  interval_type : Option String
  interval_value : Option Nat
  deriving Repr, DecidableEq

/-- _schedule_task, lines 55-67, normalised to seconds: the period of the
schedule job registered for the config, or none when interval_type matches
no branch (then no job is registered at all). -/
def intervalOf (cfg : TaskConfig) : Option Nat :=
  let ty := (cfg.interval_type).getD uMinutes
  let v := (cfg.interval_value).getD 5
  if ty = uSeconds then some v
  else if ty = uMinutes then some (60 * v)
  else if ty = uHours then some (3600 * v)
  else if ty = uDays then some (86400 * v)
  else none

/-- One entry of TaskScheduler.tasks, lines 42-49.  The next_run field is
created as None and never written anywhere in the source. -/
structure TaskRec where
  config : TaskConfig
  status : String
  created_at : Nat
  last_run : Option Nat
  next_run : Option Nat
  run_count : Nat
  deriving Repr, DecidableEq

def newTaskRec (cfg : TaskConfig) (now : Nat) : TaskRec :=
  ⟨cfg, stScheduled, now, none, none, 0⟩

/-- One schedule-library job: the bound task_id argument, the period, the
next_run instant, the (always empty here) tag set, and the ghost lastBegin
instrumentation. -/
structure Job where
  taskId : String
  interval : Nat
  nextRun : Nat
  tags : List String
  lastBegin : Option Nat
  deriving Repr, DecidableEq

/-- Program counter over _execute_task, lines 69-101.  readTask is the
locked initial lookup; markRunning the locked status/last_run/run_count
block; callService the _call_service call; storeResult the task_results
assignment; markCompleted the locked completed write; handleError the
except branch writing the failed status. -/
inductive DispatchPC
  | readTask
  | markRunning
  | callService
  | storeResult (payload : Nat)
  | markCompleted
  | handleError
  deriving Repr, DecidableEq

/-- An in-flight dispatch unit: one concrete firing of a task. -/
structure DUnit where
  jobIdx : Nat
  taskId : String
  beginTime : Nat
  pc : DispatchPC
  deriving Repr, DecidableEq

/-- Whole-scheduler state: the clock, TaskScheduler.tasks, schedule.jobs,
the task_results log (entries keyed task_id plus timestamp), the in-flight
dispatch units, whether the scheduler thread sits at the top of its loop,
and whether it has died on an uncaught exception. -/
structure SchedState where
  now : Nat
  tasks : List (String × TaskRec)
  jobs : List Job
  results : List (String × Nat × Nat)
  running : List DUnit
  tickFree : Bool
  crashed : Bool
  deriving Repr, DecidableEq

def initSched : SchedState := ⟨0, [], [], [], [], true, false⟩

/-- Point update of the job at an index. -/
def updateJob : List Job → Nat → (Job → Job) → List Job
  | [], _, _ => []
  | j :: rest, 0, f => f j :: rest
  | j :: rest, Nat.succ k, f => j :: updateJob rest k f

/-- Ghost instrumentation at the start of a firing. -/
def jobBegin (jobs : List Job) (k now : Nat) : List Job :=
  updateJob jobs k (fun j => { j with lastBegin := some now })

/-- schedule Job run, after the job function returned: next_run is
recomputed from the completion instant (fixed-delay). -/
def jobFinish (jobs : List Job) (k now : Nat) : List Job :=
  updateJob jobs k (fun j => { j with nextRun := now + j.interval })

/-- The locked block at lines 81-84 of _execute_task. -/
def markRunningF (tasks : List (String × TaskRec)) (tid : String) (now : Nat) :
    List (String × TaskRec) :=
  dictModify tasks tid (fun r =>
    { r with status := stRunning, last_run := some now, run_count := r.run_count + 1 })

/-- The locked single status writes at lines 93-94 and 100-101. -/
def setStatusF (tasks : List (String × TaskRec)) (tid st0 : String) :
    List (String × TaskRec) :=
  dictModify tasks tid (fun r => { r with status := st0 })

/-- Outcome of one _call_service invocation (network oracle): the returned
payload, or a raised exception with its message (non-200 connect, request
failure, unknown service type, ...). -/
inductive ServiceOutcome
  | ok (payload : Nat)
  | raise (msg : String)
  deriving Repr, DecidableEq

/-- Oracle giving the _call_service outcome per task id and call instant. -/
def ServiceEnv : Type := String → Nat → ServiceOutcome

/-- _execute_task, lines 69-101, as a straight-line function: the per-firing
effect of one dispatch unit when no removal interleaves with it.  An absent
task returns with no effect; otherwise the task is marked running, the
service is called, and on success the payload is appended to the result log
and the status set to completed, while on a raised error the status is set
to failed and nothing at all is appended (the except branch of the source
only writes the status; the error message is logged and dropped). -/
def executeTaskAtomic (tasks : List (String × TaskRec))
    (results : List (String × Nat × Nat)) (tid : String) (now : Nat)
    (oc : ServiceOutcome) : List (String × TaskRec) × List (String × Nat × Nat) :=
  match dictGet tasks tid with
  | none => (tasks, results)
  | some _ =>
      let tasks1 := markRunningF tasks tid now
      match oc with
      | .ok p => (setStatusF tasks1 tid stCompleted, results ++ [(tid, now, p)])
      | .raise _ => (setStatusF tasks1 tid stFailed, results)

/-- Interleaved small-step semantics of the whole scheduler process. -/
inductive SchedStep (env : ServiceEnv) : SchedState → SchedState → Prop
  /-- The logical clock advances (time passes in any thread). -/
  | tick (s : SchedState) :
      SchedStep env s { s with now := s.now + 1 }
  /-- POST /tasks → add_task, lines 39-53: store the record, then register a
  schedule job with next_run = now + period. -/
  | addTask (s : SchedState) (tid : String) (cfg : TaskConfig) (iv : Nat)
      (hiv : intervalOf cfg = some iv) :
      SchedStep env s
        { s with
            tasks := dictInsert s.tasks tid (newTaskRec cfg s.now)
            jobs := s.jobs ++ [⟨tid, iv, s.now + iv, [], none⟩] }
  /-- add_task with an interval_type matching no branch of _schedule_task:
  the record is stored but no job is ever registered. -/
  | addTaskNoJob (s : SchedState) (tid : String) (cfg : TaskConfig)
      (hiv : intervalOf cfg = none) :
      SchedStep env s
        { s with tasks := dictInsert s.tasks tid (newTaskRec cfg s.now) }
  /-- DELETE /tasks → remove_task, lines 175-184: delete the record under
  the lock and call schedule.clear(task_id), which removes exactly the jobs
  tagged task_id — and no job in this codebase carries any tag. -/
  | removeTask (s : SchedState) (tid : String)
      (hmem : (dictGet s.tasks tid).isSome = true) :
      SchedStep env s
        { s with
            tasks := (dictPop s.tasks tid).1
            jobs := s.jobs.filter (fun j => ! (j.tags.contains tid)) }
  /-- run_pending picks a due job and enters its job function: the scheduler
  thread leaves the loop top and a dispatch unit begins. -/
  | beginJob (s : SchedState) (k : Nat) (j : Job)
      (hj : s.jobs.get? k = some j)
      (hdue : j.nextRun ≤ s.now)
      (hfree : s.tickFree = true) :
      SchedStep env s
        { s with
            running := s.running ++ [⟨k, j.taskId, s.now, .readTask⟩]
            tickFree := false
            jobs := jobBegin s.jobs k s.now }
  /-- Lines 72-76 with the task present: proceed to the running update. -/
  | readTaskFound (s : SchedState) (rest : List DUnit) (u : DUnit) (rec0 : TaskRec)
      (hr : s.running = rest ++ [u])
      (hpc : u.pc = .readTask)
      (ht : dictGet s.tasks u.taskId = some rec0) :
      SchedStep env s { s with running := rest ++ [{ u with pc := .markRunning }] }
  /-- Lines 72-76 with the task absent: plain return; the schedule library
  still recomputes the next_run of the job afterwards. -/
  | readTaskAbsent (s : SchedState) (rest : List DUnit) (u : DUnit)
      (hr : s.running = rest ++ [u])
      (hpc : u.pc = .readTask)
      (ht : dictGet s.tasks u.taskId = none) :
      SchedStep env s
        { s with
            running := rest
            tickFree := true
            jobs := jobFinish s.jobs u.jobIdx s.now }
  /-- Lines 81-84 with the task still present: status running, last_run,
  run_count under one lock acquisition. -/
  | markRunningOk (s : SchedState) (rest : List DUnit) (u : DUnit) (rec0 : TaskRec)
      (hr : s.running = rest ++ [u])
      (hpc : u.pc = .markRunning)
      (ht : dictGet s.tasks u.taskId = some rec0) :
      SchedStep env s
        { s with
            tasks := markRunningF s.tasks u.taskId s.now
            running := rest ++ [{ u with pc := .callService }] }
  /-- Lines 81-84 after a concurrent removal: the subscript raises KeyError,
  caught by the except branch. -/
  | markRunningGone (s : SchedState) (rest : List DUnit) (u : DUnit)
      (hr : s.running = rest ++ [u])
      (hpc : u.pc = .markRunning)
      (ht : dictGet s.tasks u.taskId = none) :
      SchedStep env s { s with running := rest ++ [{ u with pc := .handleError }] }
  /-- Line 87, _call_service returning a payload. -/
  | callServiceOk (s : SchedState) (rest : List DUnit) (u : DUnit) (p : Nat)
      (hr : s.running = rest ++ [u])
      (hpc : u.pc = .callService)
      (henv : env u.taskId s.now = .ok p) :
      SchedStep env s { s with running := rest ++ [{ u with pc := .storeResult p }] }
  /-- Line 87, _call_service raising; caught by the except branch. -/
  | callServiceRaise (s : SchedState) (rest : List DUnit) (u : DUnit) (m : String)
      (hr : s.running = rest ++ [u])
      (hpc : u.pc = .callService)
      (henv : env u.taskId s.now = .raise m) :
      SchedStep env s { s with running := rest ++ [{ u with pc := .handleError }] }
  /-- Line 90: the result is written into task_results unconditionally. -/
  | storeResultStep (s : SchedState) (rest : List DUnit) (u : DUnit) (p : Nat)
      (hr : s.running = rest ++ [u])
      (hpc : u.pc = .storeResult p) :
      SchedStep env s
        { s with
            results := s.results ++ [(u.taskId, s.now, p)]
            running := rest ++ [{ u with pc := .markCompleted }] }
  /-- Lines 93-94 with the task present: completed, firing over, schedule
  recomputes next_run from the completion instant. -/
  | markCompletedOk (s : SchedState) (rest : List DUnit) (u : DUnit) (rec0 : TaskRec)
      (hr : s.running = rest ++ [u])
      (hpc : u.pc = .markCompleted)
      (ht : dictGet s.tasks u.taskId = some rec0) :
      SchedStep env s
        { s with
            tasks := setStatusF s.tasks u.taskId stCompleted
            running := rest
            tickFree := true
            jobs := jobFinish s.jobs u.jobIdx s.now }
  /-- Lines 93-94 after a concurrent removal: KeyError, caught by except. -/
  | markCompletedGone (s : SchedState) (rest : List DUnit) (u : DUnit)
      (hr : s.running = rest ++ [u])
      (hpc : u.pc = .markCompleted)
      (ht : dictGet s.tasks u.taskId = none) :
      SchedStep env s { s with running := rest ++ [{ u with pc := .handleError }] }
  /-- Lines 100-101 with the task present: failed, firing over, next_run
  recomputed. -/
  | handleErrorOk (s : SchedState) (rest : List DUnit) (u : DUnit) (rec0 : TaskRec)
      (hr : s.running = rest ++ [u])
      (hpc : u.pc = .handleError)
      (ht : dictGet s.tasks u.taskId = some rec0) :
      SchedStep env s
        { s with
            tasks := setStatusF s.tasks u.taskId stFailed
            running := rest
            tickFree := true
            jobs := jobFinish s.jobs u.jobIdx s.now }
  /-- Lines 100-101 after a concurrent removal: the except branch itself
  raises KeyError; nothing catches it, so it propagates through the schedule
  library and run_scheduler, killing the scheduler thread before next_run is
  recomputed. -/
  | handleErrorGone (s : SchedState) (rest : List DUnit) (u : DUnit)
      (hr : s.running = rest ++ [u])
      (hpc : u.pc = .handleError)
      (ht : dictGet s.tasks u.taskId = none) :
      SchedStep env s { s with running := rest, crashed := true }

/-- States reachable from process start. -/
inductive SchedReach (env : ServiceEnv) : SchedState → Prop
  | init : SchedReach env initSched
  | step (s s' : SchedState) :
      SchedReach env s → SchedStep env s s' → SchedReach env s'

/-! ## Lemmas about the dict and job primitives -/

theorem dictGet_insert_self {α : Type} (l : List (String × α)) (k : String) (v : α) :
    dictGet (dictInsert l k v) k = some v := by
  induction l with
  | nil => simp [dictInsert, dictGet]
  | cons hd tl ih =>
      obtain ⟨k0, v0⟩ := hd
      by_cases h : k0 = k
      · simp [dictInsert, dictGet, h]
      · simp [dictInsert, dictGet, h, ih]

theorem mem_keys_dictInsert {α : Type} (l : List (String × α)) (k x : String) (v : α) :
    x ∈ (dictInsert l k v).map Prod.fst ↔ x ∈ l.map Prod.fst ∨ x = k := by
  induction l with
  | nil => simp [dictInsert]
  | cons hd tl ih =>
      obtain ⟨k0, v0⟩ := hd
      by_cases h : k0 = k
      · subst h
        simp [dictInsert]
        tauto
      · simp [dictInsert, h, ih]
        tauto

theorem nodup_keys_dictInsert {α : Type} (l : List (String × α)) (k : String) (v : α)
    (h : (l.map Prod.fst).Nodup) : ((dictInsert l k v).map Prod.fst).Nodup := by
  induction l with
  | nil => simp [dictInsert]
  | cons hd tl ih =>
      obtain ⟨k0, v0⟩ := hd
      simp only [List.map_cons, List.nodup_cons] at h
      by_cases hk : k0 = k
      · subst hk
        simpa [dictInsert] using h
      · simp only [dictInsert, if_neg hk, List.map_cons]
        refine List.nodup_cons.mpr ⟨?_, ih h.2⟩
        rw [mem_keys_dictInsert]
        rintro (hmem | heq)
        · exact h.1 hmem
        · exact hk heq

theorem keys_dictPop_sublist {α : Type} (l : List (String × α)) (k : String) :
    ((dictPop l k).1.map Prod.fst).Sublist (l.map Prod.fst) := by
  induction l with
  | nil => simp [dictPop]
  | cons hd tl ih =>
      obtain ⟨k0, v0⟩ := hd
      by_cases h : k0 = k
      · simp only [dictPop, h, if_pos rfl]
        exact (List.sublist_cons_self _ _)
      · simp only [dictPop, if_neg h, List.map_cons]
        exact ih.cons₂ _

theorem keys_dictModify {α : Type} (l : List (String × α)) (k : String) (f : α → α) :
    (dictModify l k f).map Prod.fst = l.map Prod.fst := by
  induction l with
  | nil => simp [dictModify]
  | cons hd tl ih =>
      obtain ⟨k0, v0⟩ := hd
      by_cases h : k0 = k
      · simp [dictModify, h]
      · simp [dictModify, h, ih]

theorem dictGet_eq_none_of_not_mem {α : Type} (l : List (String × α)) (k : String)
    (h : k ∉ l.map Prod.fst) : dictGet l k = none := by
  induction l with
  | nil => rfl
  | cons hd tl ih =>
      obtain ⟨k0, v0⟩ := hd
      simp only [List.map_cons, List.mem_cons] at h
      push_neg at h
      have hne : k0 ≠ k := fun he => h.1 he.symm
      simp [dictGet, hne, ih h.2]

theorem dictPop_snd {α : Type} (l : List (String × α)) (k : String) :
    (dictPop l k).2 = dictGet l k := by
  induction l with
  | nil => rfl
  | cons hd tl ih =>
      obtain ⟨k0, v0⟩ := hd
      by_cases h : k0 = k
      · simp [dictPop, dictGet, h]
      · simp [dictPop, dictGet, h, ih]

theorem dictGet_pop_self_of_nodup {α : Type} (l : List (String × α)) (k : String)
    (h : (l.map Prod.fst).Nodup) : dictGet (dictPop l k).1 k = none := by
  induction l with
  | nil => rfl
  | cons hd tl ih =>
      obtain ⟨k0, v0⟩ := hd
      simp only [List.map_cons, List.nodup_cons] at h
      by_cases hk : k0 = k
      · subst hk
        simp only [dictPop, if_pos rfl]
        exact dictGet_eq_none_of_not_mem _ _ h.1
      · simp [dictPop, hk, dictGet, ih h.2]

theorem dictGet_modify_self {α : Type} (l : List (String × α)) (k : String) (f : α → α) :
    dictGet (dictModify l k f) k = (dictGet l k).map f := by
  induction l with
  | nil => rfl
  | cons hd tl ih =>
      obtain ⟨k0, v0⟩ := hd
      by_cases h : k0 = k
      · simp [dictModify, dictGet, h]
      · simp [dictModify, dictGet, h, ih]

theorem updateJob_get?_self (l : List Job) (k : Nat) (f : Job → Job) :
    (updateJob l k f).get? k = (l.get? k).map f := by
  induction l generalizing k with
  | nil => simp [updateJob]
  | cons hd tl ih =>
      cases k with
      | zero => simp [updateJob]
      | succ n => simpa [updateJob] using ih n

theorem updateJob_get?_ne (l : List Job) (k k' : Nat) (f : Job → Job)
    (h : k' ≠ k) : (updateJob l k f).get? k' = l.get? k' := by
  induction l generalizing k k' with
  | nil => simp [updateJob]
  | cons hd tl ih =>
      cases k with
      | zero =>
          cases k' with
          | zero => exact absurd rfl h
          | succ m => simp [updateJob]
      | succ n =>
          cases k' with
          | zero => simp [updateJob]
          | succ m =>
              simp only [updateJob, List.get?_cons_succ]
              exact ih n m (fun he => h (by rw [he]))

theorem updateJob_forall {P : Job → Prop} (l : List Job) (k : Nat) (f : Job → Job)
    (hl : ∀ j ∈ l, P j) (hf : ∀ j, P j → P (f j)) :
    ∀ j ∈ updateJob l k f, P j := by
  induction l generalizing k with
  | nil => simp [updateJob]
  | cons hd tl ih =>
      cases k with
      | zero =>
          intro j hj
          rcases List.mem_cons.mp hj with h | h
          · exact h ▸ hf hd (hl hd (List.mem_cons_self _ _))
          · exact hl j (List.mem_cons_of_mem _ h)
      | succ n =>
          intro j hj
          rcases List.mem_cons.mp hj with h | h
          · exact h ▸ hl hd (List.mem_cons_self _ _)
          · exact ih n (fun j0 hj0 => hl j0 (List.mem_cons_of_mem _ hj0)) j h

theorem filter_tags_id (l : List Job) (tid : String)
    (h : ∀ j ∈ l, j.tags = []) :
    l.filter (fun j => ! (j.tags.contains tid)) = l := by
  induction l with
  | nil => rfl
  | cons hd tl ih =>
      have htags : hd.tags = [] := h hd (List.mem_cons_self _ _)
      have htl := ih (fun j hj => h j (List.mem_cons_of_mem _ hj))
      have hsplit : List.filter (fun j => ! (Job.tags j).contains tid) (hd :: tl) =
          (if (! (Job.tags hd).contains tid) = true then
            hd :: List.filter (fun j => ! (Job.tags j).contains tid) tl
          else List.filter (fun j => ! (Job.tags j).contains tid) tl) :=
        List.filter_cons
      rw [hsplit, htags]
      simp [htl]
      intro a ha
      rw [h a (List.mem_cons_of_mem _ ha)]
      simp

theorem get?_append_elim {α : Type} (l : List α) (x : α) (k : Nat) (j : α)
    (h : (l ++ [x]).get? k = some j) :
    l.get? k = some j ∨ (k = l.length ∧ j = x) := by
  by_cases hk : k < l.length
  · left
    rwa [List.get?_append hk] at h
  · right
    have hlen : k < l.length + 1 := by
      have := List.get?_eq_some.mp h
      obtain ⟨hlt, _⟩ := this
      simpa using hlt
    have hke : k = l.length := by omega
    subst hke
    rw [List.get?_concat_length] at h
    exact ⟨rfl, (Option.some_inj.mp h).symm⟩

theorem rest_nil_of_len_le_one {α : Type} (rest : List α) (u : α)
    (h : (rest ++ [u]).length ≤ 1) : rest = [] := by
  cases rest with
  | nil => rfl
  | cons a t => simp [List.length_append] at h

/-! ## The global scheduler invariant -/

/-- Inductive invariant of the scheduler state machine: the scheduler thread
is idle exactly when no dispatch unit is in flight, at most one dispatch
unit exists, a crashed thread is permanently idle-less, jobs never carry
tags, task keys are pairwise distinct, every in-flight unit began no later
than now on a job whose ghost lastBegin records that begin instant, and an
idle job is next due no earlier than one interval after its last begin. -/
structure SchedInv (s : SchedState) : Prop where
  freeEmpty : s.tickFree = true → s.running = []
  oneUnit : s.running.length ≤ 1
  crashedStuck : s.crashed = true → s.tickFree = false
  crashedIdle : s.crashed = true → s.running = []
  tagsEmpty : ∀ j ∈ s.jobs, j.tags = []
  tasksNodup : (s.tasks.map Prod.fst).Nodup
  unitClock : ∀ u ∈ s.running, u.beginTime ≤ s.now ∧
      ∃ j, s.jobs.get? u.jobIdx = some j ∧ j.lastBegin = some u.beginTime
  gap : s.crashed = false → ∀ k j, s.jobs.get? k = some j →
      (∀ u ∈ s.running, u.jobIdx ≠ k) → ∀ t, j.lastBegin = some t →
      t + j.interval ≤ j.nextRun

theorem schedInv_pcStep {s : SchedState} {rest : List DUnit} {u : DUnit}
    (u' : DUnit) (inv : SchedInv s) (hr : s.running = rest ++ [u])
    (hidx : u'.jobIdx = u.jobIdx) (hbt : u'.beginTime = u.beginTime)
    {tasks' : List (String × TaskRec)}
    (hkeys : tasks'.map Prod.fst = s.tasks.map Prod.fst)
    {results' : List (String × Nat × Nat)} :
    SchedInv { s with tasks := tasks', results := results',
                      running := rest ++ [u'] } := by
  have hrest : rest = [] := rest_nil_of_len_le_one rest u (hr ▸ inv.oneUnit)
  subst hrest
  have hmem : u ∈ s.running := by rw [hr]; simp
  constructor
  · intro hf
    exact absurd (inv.freeEmpty hf) (by rw [hr]; simp)
  · simp
  · exact inv.crashedStuck
  · intro hc
    exact absurd (inv.crashedIdle hc) (by rw [hr]; simp)
  · exact inv.tagsEmpty
  · show (tasks'.map Prod.fst).Nodup
    rw [hkeys]
    exact inv.tasksNodup
  · intro v hv
    simp only [List.nil_append, List.mem_singleton] at hv
    subst hv
    rcases inv.unitClock u hmem with ⟨h1, j, hj, hlb⟩
    exact ⟨by rw [hbt]; exact h1, j, by rw [hidx]; exact hj,
      by rw [hbt]; exact hlb⟩
  · intro hc k j hj hnone t hlb
    refine inv.gap hc k j hj ?_ t hlb
    intro v hv
    rw [hr] at hv
    simp only [List.nil_append, List.mem_singleton] at hv
    subst hv
    have h2 := hnone u' (by simp)
    rw [hidx] at h2
    exact h2

theorem schedInv_endStep {s : SchedState} {rest : List DUnit} {u : DUnit}
    (inv : SchedInv s) (hr : s.running = rest ++ [u])
    {tasks' : List (String × TaskRec)}
    (hkeys : tasks'.map Prod.fst = s.tasks.map Prod.fst) :
    SchedInv { s with tasks := tasks', running := rest, tickFree := true,
                      jobs := jobFinish s.jobs u.jobIdx s.now } := by
  have hrest : rest = [] := rest_nil_of_len_le_one rest u (hr ▸ inv.oneUnit)
  subst hrest
  have hmem : u ∈ s.running := by rw [hr]; simp
  rcases inv.unitClock u hmem with ⟨hbt, jb, hjb, hlbb⟩
  have hcr : s.crashed = false := by
    cases hcb : s.crashed with
    | false => rfl
    | true =>
        have h0 := inv.crashedIdle hcb
        rw [hr] at h0
        simp at h0
  constructor
  · intro _; rfl
  · simp
  · intro hc; rw [hcr] at hc; simp at hc
  · intro _; rfl
  · exact updateJob_forall _ _ _ inv.tagsEmpty (fun j h => h)
  · show (tasks'.map Prod.fst).Nodup
    rw [hkeys]
    exact inv.tasksNodup
  · intro v hv
    simp at hv
  · intro _ k j hj hnone t hlb
    by_cases hk : k = u.jobIdx
    · subst hk
      rw [show jobFinish s.jobs u.jobIdx s.now =
            updateJob s.jobs u.jobIdx
              (fun j0 => { j0 with nextRun := s.now + j0.interval })
          from rfl, updateJob_get?_self] at hj
      rw [hjb] at hj
      simp only [Option.map_some'] at hj
      have hje : j = { jb with nextRun := s.now + jb.interval } :=
        (Option.some_inj.mp hj).symm
      subst hje
      simp only at hlb
      rw [hlbb] at hlb
      have hte : u.beginTime = t := Option.some_inj.mp hlb
      subst hte
      simp only
      omega
    · rw [show jobFinish s.jobs u.jobIdx s.now =
            updateJob s.jobs u.jobIdx (fun j0 => { j0 with nextRun := s.now + j0.interval })
          from rfl, updateJob_get?_ne _ _ _ _ hk] at hj
      refine inv.gap hcr k j hj ?_ t hlb
      intro v hv
      rw [hr] at hv
      simp only [List.nil_append, List.mem_singleton] at hv
      subst hv
      exact fun he => hk he.symm

theorem schedInv_step {env : ServiceEnv} {s s' : SchedState}
    (inv : SchedInv s) (st : SchedStep env s s') : SchedInv s' := by
  cases st with
  | tick =>
      exact ⟨inv.freeEmpty, inv.oneUnit, inv.crashedStuck, inv.crashedIdle,
        inv.tagsEmpty, inv.tasksNodup,
        fun v hv => ⟨Nat.le_succ_of_le (inv.unitClock v hv).1, (inv.unitClock v hv).2⟩,
        inv.gap⟩
  | addTask tid cfg iv hiv =>
      refine ⟨inv.freeEmpty, inv.oneUnit, inv.crashedStuck, inv.crashedIdle,
        ?_, ?_, ?_, ?_⟩
      · intro j hj
        rcases List.mem_append.mp hj with h | h
        · exact inv.tagsEmpty j h
        · simp only [List.mem_singleton] at h
          rw [h]
      · exact nodup_keys_dictInsert _ _ _ inv.tasksNodup
      · intro v hv
        rcases inv.unitClock v hv with ⟨h1, j, hj, hlb⟩
        have hlt : v.jobIdx < s.jobs.length := (List.get?_eq_some.mp hj).1
        exact ⟨h1, j, by rw [List.get?_append hlt]; exact hj, hlb⟩
      · intro hc k j hj hnone t hlb
        rcases get?_append_elim _ _ _ _ hj with h | ⟨_, hje⟩
        · exact inv.gap hc k j h hnone t hlb
        · rw [hje] at hlb
          cases hlb
  | addTaskNoJob tid cfg hiv =>
      exact ⟨inv.freeEmpty, inv.oneUnit, inv.crashedStuck, inv.crashedIdle,
        inv.tagsEmpty, nodup_keys_dictInsert _ _ _ inv.tasksNodup,
        inv.unitClock, inv.gap⟩
  | removeTask tid hmem =>
      have hjobs : s.jobs.filter (fun j => ! (j.tags.contains tid)) = s.jobs :=
        filter_tags_id _ _ inv.tagsEmpty
      refine ⟨inv.freeEmpty, inv.oneUnit, inv.crashedStuck, inv.crashedIdle, ?_, ?_, ?_, ?_⟩
      · show ∀ j ∈ s.jobs.filter (fun j => ! (j.tags.contains tid)), j.tags = []
        rw [hjobs]
        exact inv.tagsEmpty
      · exact ((keys_dictPop_sublist s.tasks tid).nodup) inv.tasksNodup
      · intro v hv
        rcases inv.unitClock v hv with ⟨h1, j, hj, hlb⟩
        exact ⟨h1, j, by rw [hjobs]; exact hj, hlb⟩
      · intro hc k j hj hnone t hlb
        rw [hjobs] at hj
        exact inv.gap hc k j hj hnone t hlb
  | beginJob k j hj hdue hfree =>
      have hempty : s.running = [] := inv.freeEmpty hfree
      refine ⟨?_, ?_, ?_, ?_, ?_, inv.tasksNodup, ?_, ?_⟩
      · intro h
        simp at h
      · rw [hempty]
        simp
      · intro _; rfl
      · intro hc
        have h0 := inv.crashedStuck hc
        rw [hfree] at h0
        simp at h0
      · exact updateJob_forall _ _ _ inv.tagsEmpty (fun j0 h0 => h0)
      · intro v hv
        rw [hempty] at hv
        simp only [List.nil_append, List.mem_singleton] at hv
        subst hv
        refine ⟨Nat.le_refl _, { j with lastBegin := some s.now }, ?_, rfl⟩
        show (jobBegin s.jobs k s.now).get? k = _
        rw [show jobBegin s.jobs k s.now =
              updateJob s.jobs k (fun j0 => { j0 with lastBegin := some s.now })
            from rfl, updateJob_get?_self, hj]
        rfl
      · intro hc k' j' hj' hnone t hlb
        have hka : k' ≠ k := by
          intro he
          exact hnone ⟨k, j.taskId, s.now, .readTask⟩ (by rw [hempty]; simp) (by rw [he])
        rw [show jobBegin s.jobs k s.now =
              updateJob s.jobs k (fun j0 => { j0 with lastBegin := some s.now })
            from rfl, updateJob_get?_ne _ _ _ _ hka] at hj'
        refine inv.gap hc k' j' hj' ?_ t hlb
        intro v hv
        rw [hempty] at hv
        simp at hv
  | readTaskFound rest u rec0 hr hpc ht =>
      exact schedInv_pcStep { u with pc := .markRunning } inv hr rfl rfl rfl
  | readTaskAbsent rest u hr hpc ht =>
      exact schedInv_endStep inv hr rfl
  | markRunningOk rest u rec0 hr hpc ht =>
      exact schedInv_pcStep { u with pc := .callService } inv hr rfl rfl
        (keys_dictModify _ _ _)
  | markRunningGone rest u hr hpc ht =>
      exact schedInv_pcStep { u with pc := .handleError } inv hr rfl rfl rfl
  | callServiceOk rest u p hr hpc henv =>
      exact schedInv_pcStep { u with pc := .storeResult p } inv hr rfl rfl rfl
  | callServiceRaise rest u m hr hpc henv =>
      exact schedInv_pcStep { u with pc := .handleError } inv hr rfl rfl rfl
  | storeResultStep rest u p hr hpc =>
      exact schedInv_pcStep { u with pc := .markCompleted } inv hr rfl rfl rfl
  | markCompletedOk rest u rec0 hr hpc ht =>
      exact schedInv_endStep inv hr (keys_dictModify _ _ _)
  | markCompletedGone rest u hr hpc ht =>
      exact schedInv_pcStep { u with pc := .handleError } inv hr rfl rfl rfl
  | handleErrorOk rest u rec0 hr hpc ht =>
      exact schedInv_endStep inv hr (keys_dictModify _ _ _)
  | handleErrorGone rest u hr hpc ht =>
      have hrest : rest = [] := rest_nil_of_len_le_one rest u (hr ▸ inv.oneUnit)
      subst hrest
      have htf : s.tickFree = false := by
        cases htt : s.tickFree with
        | false => rfl
        | true =>
            have h0 := inv.freeEmpty htt
            rw [hr] at h0
            simp at h0
      refine ⟨?_, ?_, fun _ => htf, fun _ => rfl, inv.tagsEmpty, inv.tasksNodup, ?_, ?_⟩
      · intro _; rfl
      · simp
      · intro v hv
        simp at hv
      · intro hc
        simp at hc
theorem schedInv_init : SchedInv initSched := by
  refine ⟨fun _ => rfl, by decide, fun h => absurd h (by decide), fun _ => rfl,
    by simp [initSched], by simp [initSched], by simp [initSched], ?_⟩
  intro _ k j hj
  simp [initSched] at hj

theorem schedInv_reach {env : ServiceEnv} {s : SchedState}
    (h : SchedReach env s) : SchedInv s := by
  induction h with
  | init => exact schedInv_init
  | step s s' hre hst ih => exact schedInv_step ih hst

/-- A constant service oracle used to instantiate witness statements. -/
def env0 : ServiceEnv := fun _ _ => ServiceOutcome.ok 0

/-! ## Claim C1 -/

/-- C1: single-flight invariant.  In every reachable state of the scheduler
process at most one in-flight dispatch unit exists (so in particular at most
one per task_id), any two in-flight units are equal, and whenever the tick
loop is in a position to launch a new dispatch unit (the scheduler thread is
at the top of its loop) no dispatch unit is in flight at all — hence a
scheduling tick never launches a second dispatch unit for a Task whose
previous dispatch has not yet reached a terminal per-firing state.  The
source satisfies this because run_pending executes each job function
synchronously on the single scheduler thread; the ThreadPoolExecutor
created at line 30 of task-scheduler/app.py is never used. -/
theorem c1_single_flight (env : ServiceEnv) (s : SchedState)
    (h : SchedReach env s) :
    s.running.length ≤ 1 ∧
    (∀ u ∈ s.running, ∀ v ∈ s.running, u = v) ∧
    (s.tickFree = true → s.running = []) := by
  have inv := schedInv_reach h
  refine ⟨inv.oneUnit, ?_, inv.freeEmpty⟩
  intro u hu v hv
  cases hrun : s.running with
  | nil =>
      rw [hrun] at hu
      simp at hu
  | cons a tl =>
      have hlen := inv.oneUnit
      rw [hrun] at hlen
      simp only [List.length_cons] at hlen
      have htl : tl = [] := List.eq_nil_of_length_eq_zero (by omega)
      subst htl
      rw [hrun] at hu hv
      simp only [List.mem_singleton] at hu hv
      rw [hu, hv]

/-- Witness for c1_single_flight at the initial state and a constant
oracle. -/
theorem c1_single_flight_witness :
    initSched.running.length ≤ 1 ∧
    (∀ u ∈ initSched.running, ∀ v ∈ initSched.running, u = v) ∧
    (initSched.tickFree = true → initSched.running = []) :=
  c1_single_flight env0 initSched SchedReach.init

/-! ## Claim C2 -/

theorem jobsEq_conclusion {j j' : Job} (now : Nat) (hjj : j' = j) :
    (j'.nextRun ≠ j.nextRun →
        j'.interval = j.interval ∧ j'.nextRun = now + j.interval) ∧
    (j'.lastBegin ≠ j.lastBegin →
        j'.lastBegin = some now ∧
        ∀ t, j.lastBegin = some t → t + j.interval ≤ now) := by
  subst hjj
  exact ⟨fun h => absurd rfl h, fun h => absurd rfl h⟩

/-- C2 amended: the code schedules fixed-delay, not fixed-rate.  Across any
step of the scheduler, whenever the next_run of a registered job changes it
is recomputed as the current instant (the completion time of the firing,
since the schedule library recomputes next_run only after the job function
has returned) plus the interval — not as the previous next_run plus the
interval; and whenever a new firing of a job begins (its lastBegin changes),
it begins at the current instant and at least one interval after the
previous firing of that job began, so N firings of one registered job still
span at least (N-1) intervals of logical time. -/
theorem c2_amended (env : ServiceEnv) (s s' : SchedState)
    (hre : SchedReach env s) (hst : SchedStep env s s')
    (k : Nat) (j j' : Job)
    (hj : s.jobs.get? k = some j) (hj' : s'.jobs.get? k = some j') :
    (j'.nextRun ≠ j.nextRun →
        j'.interval = j.interval ∧ j'.nextRun = s.now + j.interval) ∧
    (j'.lastBegin ≠ j.lastBegin →
        j'.lastBegin = some s.now ∧
        ∀ t, j.lastBegin = some t → t + j.interval ≤ s.now) := by
  have inv := schedInv_reach hre
  cases hst with
  | tick =>
      have hj2 : s.jobs.get? k = some j' := hj'
      rw [hj] at hj2
      exact jobsEq_conclusion _ (Option.some_inj.mp hj2).symm
  | addTask tid cfg iv hiv =>
      have hj2 : (s.jobs ++ [(⟨tid, iv, s.now + iv, [], none⟩ : Job)]).get? k = some j' := hj'
      rcases get?_append_elim _ _ _ _ hj2 with h | ⟨hk, _⟩
      · rw [hj] at h
        exact jobsEq_conclusion _ (Option.some_inj.mp h).symm
      · have hlt : k < s.jobs.length := (List.get?_eq_some.mp hj).1
        omega
  | addTaskNoJob tid cfg hiv =>
      have hj2 : s.jobs.get? k = some j' := hj'
      rw [hj] at hj2
      exact jobsEq_conclusion _ (Option.some_inj.mp hj2).symm
  | removeTask tid hmem =>
      have hj2 : (s.jobs.filter (fun j0 => ! (j0.tags.contains tid))).get? k = some j' := hj'
      rw [filter_tags_id _ _ inv.tagsEmpty, hj] at hj2
      exact jobsEq_conclusion _ (Option.some_inj.mp hj2).symm
  | beginJob k0 j0 hj0 hdue hfree =>
      have hj2 : (jobBegin s.jobs k0 s.now).get? k = some j' := hj'
      by_cases hk : k = k0
      · subst hk
        rw [show jobBegin s.jobs k s.now =
              updateJob s.jobs k (fun jx => { jx with lastBegin := some s.now })
            from rfl, updateJob_get?_self, hj] at hj2
        simp only [Option.map_some'] at hj2
        have hje : j' = { j with lastBegin := some s.now } :=
          (Option.some_inj.mp hj2).symm
        subst hje
        have hjeq : j = j0 := by
          rw [hj] at hj0
          exact Option.some_inj.mp hj0
        refine ⟨fun h => absurd rfl h, fun _ => ⟨rfl, ?_⟩⟩
        intro t hlb
        have hcr : s.crashed = false := by
          cases hcb : s.crashed with
          | false => rfl
          | true =>
              have h0 := inv.crashedStuck hcb
              rw [hfree] at h0
              simp at h0
        have hgap := inv.gap hcr k j hj ?_ t hlb
        · calc t + j.interval ≤ j.nextRun := hgap
            _ ≤ s.now := by rw [hjeq]; exact hdue
        · intro v hv
          rw [inv.freeEmpty hfree] at hv
          simp at hv
      · rw [show jobBegin s.jobs k0 s.now =
              updateJob s.jobs k0 (fun jx => { jx with lastBegin := some s.now })
            from rfl, updateJob_get?_ne _ _ _ _ hk, hj] at hj2
        exact jobsEq_conclusion _ (Option.some_inj.mp hj2).symm
  | readTaskFound rest u rec0 hr hpc ht =>
      have hj2 : s.jobs.get? k = some j' := hj'
      rw [hj] at hj2
      exact jobsEq_conclusion _ (Option.some_inj.mp hj2).symm
  | readTaskAbsent rest u hr hpc ht =>
      have hj2 : (jobFinish s.jobs u.jobIdx s.now).get? k = some j' := hj'
      by_cases hk : k = u.jobIdx
      · subst hk
        rw [show jobFinish s.jobs u.jobIdx s.now =
              updateJob s.jobs u.jobIdx
                (fun jx => { jx with nextRun := s.now + jx.interval })
            from rfl, updateJob_get?_self, hj] at hj2
        simp only [Option.map_some'] at hj2
        have hje : j' = { j with nextRun := s.now + j.interval } :=
          (Option.some_inj.mp hj2).symm
        subst hje
        exact ⟨fun _ => ⟨rfl, rfl⟩, fun h => absurd rfl h⟩
      · rw [show jobFinish s.jobs u.jobIdx s.now =
              updateJob s.jobs u.jobIdx (fun jx => { jx with nextRun := s.now + jx.interval })
            from rfl, updateJob_get?_ne _ _ _ _ hk, hj] at hj2
        exact jobsEq_conclusion _ (Option.some_inj.mp hj2).symm
  | markRunningOk rest u rec0 hr hpc ht =>
      have hj2 : s.jobs.get? k = some j' := hj'
      rw [hj] at hj2
      exact jobsEq_conclusion _ (Option.some_inj.mp hj2).symm
  | markRunningGone rest u hr hpc ht =>
      have hj2 : s.jobs.get? k = some j' := hj'
      rw [hj] at hj2
      exact jobsEq_conclusion _ (Option.some_inj.mp hj2).symm
  | callServiceOk rest u p hr hpc henv =>
      have hj2 : s.jobs.get? k = some j' := hj'
      rw [hj] at hj2
      exact jobsEq_conclusion _ (Option.some_inj.mp hj2).symm
  | callServiceRaise rest u m hr hpc henv =>
      have hj2 : s.jobs.get? k = some j' := hj'
      rw [hj] at hj2
      exact jobsEq_conclusion _ (Option.some_inj.mp hj2).symm
  | storeResultStep rest u p hr hpc =>
      have hj2 : s.jobs.get? k = some j' := hj'
      rw [hj] at hj2
      exact jobsEq_conclusion _ (Option.some_inj.mp hj2).symm
  | markCompletedOk rest u rec0 hr hpc ht =>
      have hj2 : (jobFinish s.jobs u.jobIdx s.now).get? k = some j' := hj'
      by_cases hk : k = u.jobIdx
      · subst hk
        rw [show jobFinish s.jobs u.jobIdx s.now =
              updateJob s.jobs u.jobIdx
                (fun jx => { jx with nextRun := s.now + jx.interval })
            from rfl, updateJob_get?_self, hj] at hj2
        simp only [Option.map_some'] at hj2
        have hje : j' = { j with nextRun := s.now + j.interval } :=
          (Option.some_inj.mp hj2).symm
        subst hje
        exact ⟨fun _ => ⟨rfl, rfl⟩, fun h => absurd rfl h⟩
      · rw [show jobFinish s.jobs u.jobIdx s.now =
              updateJob s.jobs u.jobIdx (fun jx => { jx with nextRun := s.now + jx.interval })
            from rfl, updateJob_get?_ne _ _ _ _ hk, hj] at hj2
        exact jobsEq_conclusion _ (Option.some_inj.mp hj2).symm
  | markCompletedGone rest u hr hpc ht =>
      have hj2 : s.jobs.get? k = some j' := hj'
      rw [hj] at hj2
      exact jobsEq_conclusion _ (Option.some_inj.mp hj2).symm
  | handleErrorOk rest u rec0 hr hpc ht =>
      have hj2 : (jobFinish s.jobs u.jobIdx s.now).get? k = some j' := hj'
      by_cases hk : k = u.jobIdx
      · subst hk
        rw [show jobFinish s.jobs u.jobIdx s.now =
              updateJob s.jobs u.jobIdx
                (fun jx => { jx with nextRun := s.now + jx.interval })
            from rfl, updateJob_get?_self, hj] at hj2
        simp only [Option.map_some'] at hj2
        have hje : j' = { j with nextRun := s.now + j.interval } :=
          (Option.some_inj.mp hj2).symm
        subst hje
        exact ⟨fun _ => ⟨rfl, rfl⟩, fun h => absurd rfl h⟩
      · rw [show jobFinish s.jobs u.jobIdx s.now =
              updateJob s.jobs u.jobIdx (fun jx => { jx with nextRun := s.now + jx.interval })
            from rfl, updateJob_get?_ne _ _ _ _ hk, hj] at hj2
        exact jobsEq_conclusion _ (Option.some_inj.mp hj2).symm
  | handleErrorGone rest u hr hpc ht =>
      have hj2 : s.jobs.get? k = some j' := hj'
      rw [hj] at hj2
      exact jobsEq_conclusion _ (Option.some_inj.mp hj2).symm

def t1 : String := "t1"

/-- Constant oracle whose service calls always return payload 7. -/
def env7 : ServiceEnv := fun _ _ => ServiceOutcome.ok 7

/-- A task config with interval_type seconds and interval_value 5. -/
def cfgSec5 : TaskConfig := ⟨some uSeconds, some 5⟩

/-- Final state of the execution refuting claim C2: the task was registered
at time 0 (job next_run 5), its first firing began at time 5 and completed
at time 7, and the job then carries next_run 12. -/
def sC2 : SchedState :=
  ⟨7, [(t1, ⟨cfgSec5, stCompleted, 0, some 5, none, 1⟩)],
   [⟨t1, 5, 12, [], some 5⟩], [(t1, 7, 7)], [], true, false⟩

/-- C2 counterexample: the code is fixed-delay, not fixed-rate.  In this
reachable execution a task with interval 5 seconds is registered at time 0,
so the job's next_run is 5; its first dispatch begins at time 5 and the
service call lasts until time 7; the schedule library then recomputes
next_run only after the job function returns, setting it to 12 = 7 + 5.
The claim demands next_run = previous next_run + interval = 5 + 5 = 10,
and 12 differs from 10. -/
theorem c2_fixed_rate_counterexample :
    SchedReach env7 sC2 ∧
    sC2.jobs.get? 0 = some ⟨t1, 5, 12, [], some 5⟩ ∧
    (12 : Nat) ≠ 5 + 5 := by
  refine ⟨?_, rfl, by decide⟩
  have h1 : SchedReach env7
      ⟨0, [(t1, ⟨cfgSec5, stScheduled, 0, none, none, 0⟩)],
       [⟨t1, 5, 5, [], none⟩], [], [], true, false⟩ :=
    SchedReach.step _ _ SchedReach.init
      (SchedStep.addTask _ t1 cfgSec5 5 (by decide))
  have h2 := SchedReach.step _ _ h1 (SchedStep.tick _)
  have h3 := SchedReach.step _ _ h2 (SchedStep.tick _)
  have h4 := SchedReach.step _ _ h3 (SchedStep.tick _)
  have h5 := SchedReach.step _ _ h4 (SchedStep.tick _)
  have h6 := SchedReach.step _ _ h5 (SchedStep.tick _)
  have h7 := SchedReach.step _ _ h6
    (SchedStep.beginJob _ 0 ⟨t1, 5, 5, [], none⟩ (by decide) (by decide) (by decide))
  have h8 := SchedReach.step _ _ h7
    (SchedStep.readTaskFound _ [] ⟨0, t1, 5, .readTask⟩
      ⟨cfgSec5, stScheduled, 0, none, none, 0⟩ (by decide) rfl (by decide))
  have h9 := SchedReach.step _ _ h8
    (SchedStep.markRunningOk _ [] ⟨0, t1, 5, .markRunning⟩
      ⟨cfgSec5, stScheduled, 0, none, none, 0⟩ (by decide) rfl (by decide))
  have h10 := SchedReach.step _ _ h9
    (SchedStep.callServiceOk _ [] ⟨0, t1, 5, .callService⟩ 7 (by decide) rfl (by decide))
  have h11 := SchedReach.step _ _ h10 (SchedStep.tick _)
  have h12 := SchedReach.step _ _ h11 (SchedStep.tick _)
  have h13 := SchedReach.step _ _ h12
    (SchedStep.storeResultStep _ [] ⟨0, t1, 5, .storeResult 7⟩ 7 (by decide) rfl)
  exact SchedReach.step _ _ h13
    (SchedStep.markCompletedOk _ [] ⟨0, t1, 5, .markCompleted⟩
      ⟨cfgSec5, stRunning, 0, some 5, none, 1⟩ (by decide) rfl (by decide))

/-- State just before the first firing of the amended-C2 witness trace. -/
def sC2a : SchedState :=
  ⟨5, [(t1, ⟨cfgSec5, stScheduled, 0, none, none, 0⟩)],
   [⟨t1, 5, 5, [], none⟩], [], [], true, false⟩

/-- State just after the begin step of the amended-C2 witness trace. -/
def sC2b : SchedState :=
  ⟨5, [(t1, ⟨cfgSec5, stScheduled, 0, none, none, 0⟩)],
   [⟨t1, 5, 5, [], some 5⟩], [], [⟨0, t1, 5, .readTask⟩], false, false⟩

/-- Witness for c2_amended at the begin step of a concrete trace. -/
theorem c2_amended_witness :
    ((⟨t1, 5, 5, [], some 5⟩ : Job).nextRun ≠ (⟨t1, 5, 5, [], none⟩ : Job).nextRun →
        (⟨t1, 5, 5, [], some 5⟩ : Job).interval = (⟨t1, 5, 5, [], none⟩ : Job).interval ∧
        (⟨t1, 5, 5, [], some 5⟩ : Job).nextRun =
          sC2a.now + (⟨t1, 5, 5, [], none⟩ : Job).interval) ∧
    ((⟨t1, 5, 5, [], some 5⟩ : Job).lastBegin ≠ (⟨t1, 5, 5, [], none⟩ : Job).lastBegin →
        (⟨t1, 5, 5, [], some 5⟩ : Job).lastBegin = some sC2a.now ∧
        ∀ t, (⟨t1, 5, 5, [], none⟩ : Job).lastBegin = some t →
          t + (⟨t1, 5, 5, [], none⟩ : Job).interval ≤ sC2a.now) := by
  have hre : SchedReach env7 sC2a :=
    SchedReach.step _ _
      (SchedReach.step _ _
        (SchedReach.step _ _
          (SchedReach.step _ _
            (SchedReach.step _ _
              (SchedReach.step _ _ SchedReach.init
                (SchedStep.addTask _ t1 cfgSec5 5 (by decide)))
              (SchedStep.tick _))
            (SchedStep.tick _))
          (SchedStep.tick _))
        (SchedStep.tick _))
      (SchedStep.tick _)
  exact c2_amended env7 sC2a sC2b hre
    (SchedStep.beginJob sC2a 0 ⟨t1, 5, 5, [], none⟩ rfl (by decide) rfl)
    0 ⟨t1, 5, 5, [], none⟩ ⟨t1, 5, 5, [], some 5⟩ rfl rfl

/-! ## Claim C4 -/

def msgBoom : String := "boom"

/-- C4 counterexample: a dispatch-unit execution whose service call raises
(classified error) sets the task status to failed but appends NOTHING to
the result log — no ExecutionResult with a Failed or Timeout status and no
error_message is recorded (the model result entries carry no error field at
all because the source stores results only on the success path, line 90,
and the except branch, lines 98-101, only writes the status). -/
theorem c4_counterexample :
    (executeTaskAtomic [(t1, ⟨cfgSec5, stScheduled, 0, none, none, 0⟩)] [] t1 3
        (ServiceOutcome.raise msgBoom)).2 = [] ∧
    dictGet (executeTaskAtomic [(t1, ⟨cfgSec5, stScheduled, 0, none, none, 0⟩)] [] t1 3
        (ServiceOutcome.raise msgBoom)).1 t1 =
      some ⟨cfgSec5, stFailed, 0, some 3, none, 1⟩ := by decide

/-- C4 amended: for every dispatch-unit execution of a registered task, on a
successful service call the status becomes completed, run_count increments,
last_run is set, and the result payload is appended to the result log; on a
raised (classified) error the status becomes failed with the same
running-block mutations, and nothing is appended to the result log — the
error message is dropped. -/
theorem c4_amended (tasks : List (String × TaskRec))
    (results : List (String × Nat × Nat)) (tid : String) (now : Nat)
    (r0 : TaskRec) (p : Nat) (m : String)
    (h : dictGet tasks tid = some r0) :
    (dictGet (executeTaskAtomic tasks results tid now (.ok p)).1 tid =
        some { r0 with status := stCompleted, last_run := some now,
                       run_count := r0.run_count + 1 } ∧
      (executeTaskAtomic tasks results tid now (.ok p)).2 =
        results ++ [(tid, now, p)]) ∧
    (dictGet (executeTaskAtomic tasks results tid now (.raise m)).1 tid =
        some { r0 with status := stFailed, last_run := some now,
                       run_count := r0.run_count + 1 } ∧
      (executeTaskAtomic tasks results tid now (.raise m)).2 = results) := by
  have h1 : dictGet (markRunningF tasks tid now) tid =
      some { r0 with status := stRunning, last_run := some now,
                     run_count := r0.run_count + 1 } := by
    rw [show markRunningF tasks tid now = dictModify tasks tid
          (fun r => { r with status := stRunning, last_run := some now,
                             run_count := r.run_count + 1 }) from rfl,
        dictGet_modify_self, h]
    rfl
  have h2 : dictGet (setStatusF (markRunningF tasks tid now) tid stCompleted) tid =
      some { r0 with status := stCompleted, last_run := some now,
                     run_count := r0.run_count + 1 } := by
    rw [show setStatusF (markRunningF tasks tid now) tid stCompleted =
          dictModify (markRunningF tasks tid now) tid
            (fun r => { r with status := stCompleted }) from rfl,
        dictGet_modify_self, h1]
    rfl
  have h3 : dictGet (setStatusF (markRunningF tasks tid now) tid stFailed) tid =
      some { r0 with status := stFailed, last_run := some now,
                     run_count := r0.run_count + 1 } := by
    rw [show setStatusF (markRunningF tasks tid now) tid stFailed =
          dictModify (markRunningF tasks tid now) tid
            (fun r => { r with status := stFailed }) from rfl,
        dictGet_modify_self, h1]
    rfl
  simp only [executeTaskAtomic, h]
  exact ⟨⟨h2, trivial⟩, ⟨h3, trivial⟩⟩

/-- Witness for c4_amended at a concrete one-task table. -/
theorem c4_amended_witness :
    (dictGet (executeTaskAtomic [(t1, ⟨cfgSec5, stScheduled, 0, none, none, 0⟩)]
          [] t1 3 (.ok 7)).1 t1 =
        some { (⟨cfgSec5, stScheduled, 0, none, none, 0⟩ : TaskRec) with
                 status := stCompleted, last_run := some (3 : Nat),
                 run_count := (⟨cfgSec5, stScheduled, 0, none, none, 0⟩ : TaskRec).run_count + 1 } ∧
      (executeTaskAtomic [(t1, ⟨cfgSec5, stScheduled, 0, none, none, 0⟩)]
          [] t1 3 (.ok 7)).2 = [] ++ [(t1, 3, 7)]) ∧
    (dictGet (executeTaskAtomic [(t1, ⟨cfgSec5, stScheduled, 0, none, none, 0⟩)]
          [] t1 3 (.raise msgBoom)).1 t1 =
        some { (⟨cfgSec5, stScheduled, 0, none, none, 0⟩ : TaskRec) with
                 status := stFailed, last_run := some (3 : Nat),
                 run_count := (⟨cfgSec5, stScheduled, 0, none, none, 0⟩ : TaskRec).run_count + 1 } ∧
      (executeTaskAtomic [(t1, ⟨cfgSec5, stScheduled, 0, none, none, 0⟩)]
          [] t1 3 (.raise msgBoom)).2 = []) :=
  c4_amended [(t1, ⟨cfgSec5, stScheduled, 0, none, none, 0⟩)] [] t1 3
    ⟨cfgSec5, stScheduled, 0, none, none, 0⟩ 7 msgBoom (by decide)

/-! ## Claim C6 -/

/-- A task config with interval_type seconds and interval_value 1. -/
def cfgSec1 : TaskConfig := ⟨some uSeconds, some 1⟩

/-- Final state of the execution refuting claim C6: the task was removed
while its dispatch was between the running-update and the service call; the
dispatch then recorded its result (not discarded) and crashed the scheduler
thread with an uncaught KeyError (raised, not completed cleanly). -/
def sC6 : SchedState :=
  ⟨1, [], [⟨t1, 1, 1, [], some 1⟩], [(t1, 1, 7)], [], false, true⟩

/-- C6 counterexample: an in-flight dispatch unit whose Task is removed
mid-flight does NOT complete without raising with its result discarded.  In
this reachable execution the task is removed right after the dispatch
marked it running; the service call succeeds, its result IS recorded in the
result log, and then the completed-status write raises KeyError, whose
except handler raises KeyError again — uncaught, so the scheduler thread
dies (crashed state). -/
theorem c6_counterexample :
    SchedReach env7 sC6 ∧ sC6.crashed = true ∧
    sC6.results = [(t1, 1, 7)] ∧ dictGet sC6.tasks t1 = none := by
  refine ⟨?_, rfl, rfl, rfl⟩
  have h1 : SchedReach env7
      ⟨0, [(t1, ⟨cfgSec1, stScheduled, 0, none, none, 0⟩)],
       [⟨t1, 1, 1, [], none⟩], [], [], true, false⟩ :=
    SchedReach.step _ _ SchedReach.init
      (SchedStep.addTask _ t1 cfgSec1 1 (by decide))
  have h2 := SchedReach.step _ _ h1 (SchedStep.tick _)
  have h3 := SchedReach.step _ _ h2
    (SchedStep.beginJob _ 0 ⟨t1, 1, 1, [], none⟩ (by decide) (by decide) (by decide))
  have h4 := SchedReach.step _ _ h3
    (SchedStep.readTaskFound _ [] ⟨0, t1, 1, .readTask⟩
      ⟨cfgSec1, stScheduled, 0, none, none, 0⟩ (by decide) rfl (by decide))
  have h5 := SchedReach.step _ _ h4
    (SchedStep.markRunningOk _ [] ⟨0, t1, 1, .markRunning⟩
      ⟨cfgSec1, stScheduled, 0, none, none, 0⟩ (by decide) rfl (by decide))
  have h6 := SchedReach.step _ _ h5
    (SchedStep.removeTask _ t1 (by decide))
  have h7 := SchedReach.step _ _ h6
    (SchedStep.callServiceOk _ [] ⟨0, t1, 1, .callService⟩ 7 (by decide) rfl (by decide))
  have h8 := SchedReach.step _ _ h7
    (SchedStep.storeResultStep _ [] ⟨0, t1, 1, .storeResult 7⟩ 7 (by decide) rfl)
  have h9 := SchedReach.step _ _ h8
    (SchedStep.markCompletedGone _ [] ⟨0, t1, 1, .markCompleted⟩ (by decide) rfl (by decide))
  exact SchedReach.step _ _ h9
    (SchedStep.handleErrorGone _ [] ⟨0, t1, 1, .handleError⟩ (by decide) rfl (by decide))

/-- C6 amended: deleting a Task removes it from the listing immediately
(first conjunct: after remove_task the key is gone from the table), and a
dispatch unit that starts after the deletion observes the absent task and
terminates with no effect — no task mutation, no result, no crash (second
conjunct).  But an in-flight dispatch unit for a removed Task is not
discarded cleanly: a dispatch at its result-store step records its result
unconditionally (third conjunct), and a dispatch whose except branch runs
with the task absent crashes the scheduler thread with an uncaught KeyError
(fourth conjunct). -/
theorem c6_amended (env : ServiceEnv) (s s' : SchedState) (u : DUnit) (tid : String)
    (hre : SchedReach env s) (hst : SchedStep env s s')
    (hu : u ∈ s.running) (hgone : u ∉ s'.running) :
    dictGet (dictPop s.tasks tid).1 tid = none ∧
    (u.pc = .readTask → dictGet s.tasks u.taskId = none →
        s'.tasks = s.tasks ∧ s'.results = s.results ∧ s'.crashed = false) ∧
    (∀ p, u.pc = .storeResult p →
        s'.results = s.results ++ [(u.taskId, s.now, p)]) ∧
    (u.pc = .handleError → dictGet s.tasks u.taskId = none →
        s'.crashed = true) := by
  have inv := schedInv_reach hre
  refine ⟨dictGet_pop_self_of_nodup _ _ inv.tasksNodup, ?_⟩
  cases hst with
  | tick => exact absurd hu hgone
  | addTask tid0 cfg iv hiv => exact absurd hu hgone
  | addTaskNoJob tid0 cfg hiv => exact absurd hu hgone
  | removeTask tid0 hmem => exact absurd hu hgone
  | beginJob k j hj hdue hfree =>
      exact absurd (List.mem_append_left _ hu) hgone
  | readTaskFound rest w rec0 hr hpc ht =>
      have hrest : rest = [] := rest_nil_of_len_le_one rest w (hr ▸ inv.oneUnit)
      subst hrest
      have huw : u = w := by
        rw [hr] at hu
        simpa using hu
      subst huw
      refine ⟨?_, ?_, ?_⟩
      · intro _ habs
        rw [ht] at habs
        cases habs
      · intro p hp
        simp [hpc] at hp
      · intro hd
        simp [hpc] at hd
  | readTaskAbsent rest w hr hpc ht =>
      have hrest : rest = [] := rest_nil_of_len_le_one rest w (hr ▸ inv.oneUnit)
      subst hrest
      have huw : u = w := by
        rw [hr] at hu
        simpa using hu
      subst huw
      have hcr : s.crashed = false := by
        cases hcb : s.crashed with
        | false => rfl
        | true =>
            have h0 := inv.crashedIdle hcb
            rw [hr] at h0
            simp at h0
      refine ⟨fun _ _ => ⟨rfl, rfl, hcr⟩, ?_, ?_⟩
      · intro p hp
        simp [hpc] at hp
      · intro hd
        simp [hpc] at hd
  | markRunningOk rest w rec0 hr hpc ht =>
      have hrest : rest = [] := rest_nil_of_len_le_one rest w (hr ▸ inv.oneUnit)
      subst hrest
      have huw : u = w := by
        rw [hr] at hu
        simpa using hu
      subst huw
      exact ⟨fun hp => by simp [hpc] at hp, fun p hp => by simp [hpc] at hp,
        fun hd => by simp [hpc] at hd⟩
  | markRunningGone rest w hr hpc ht =>
      have hrest : rest = [] := rest_nil_of_len_le_one rest w (hr ▸ inv.oneUnit)
      subst hrest
      have huw : u = w := by
        rw [hr] at hu
        simpa using hu
      subst huw
      exact ⟨fun hp => by simp [hpc] at hp, fun p hp => by simp [hpc] at hp,
        fun hd => by simp [hpc] at hd⟩
  | callServiceOk rest w p0 hr hpc henv =>
      have hrest : rest = [] := rest_nil_of_len_le_one rest w (hr ▸ inv.oneUnit)
      subst hrest
      have huw : u = w := by
        rw [hr] at hu
        simpa using hu
      subst huw
      exact ⟨fun hp => by simp [hpc] at hp, fun p hp => by simp [hpc] at hp,
        fun hd => by simp [hpc] at hd⟩
  | callServiceRaise rest w m hr hpc henv =>
      have hrest : rest = [] := rest_nil_of_len_le_one rest w (hr ▸ inv.oneUnit)
      subst hrest
      have huw : u = w := by
        rw [hr] at hu
        simpa using hu
      subst huw
      exact ⟨fun hp => by simp [hpc] at hp, fun p hp => by simp [hpc] at hp,
        fun hd => by simp [hpc] at hd⟩
  | storeResultStep rest w p0 hr hpc =>
      have hrest : rest = [] := rest_nil_of_len_le_one rest w (hr ▸ inv.oneUnit)
      subst hrest
      have huw : u = w := by
        rw [hr] at hu
        simpa using hu
      subst huw
      refine ⟨fun hp => by simp [hpc] at hp, ?_, fun hd => by simp [hpc] at hd⟩
      intro p hp
      rw [hpc] at hp
      injection hp with hpp
      subst hpp
      rfl
  | markCompletedOk rest w rec0 hr hpc ht =>
      have hrest : rest = [] := rest_nil_of_len_le_one rest w (hr ▸ inv.oneUnit)
      subst hrest
      have huw : u = w := by
        rw [hr] at hu
        simpa using hu
      subst huw
      exact ⟨fun hp => by simp [hpc] at hp, fun p hp => by simp [hpc] at hp,
        fun hd => by simp [hpc] at hd⟩
  | markCompletedGone rest w hr hpc ht =>
      have hrest : rest = [] := rest_nil_of_len_le_one rest w (hr ▸ inv.oneUnit)
      subst hrest
      have huw : u = w := by
        rw [hr] at hu
        simpa using hu
      subst huw
      exact ⟨fun hp => by simp [hpc] at hp, fun p hp => by simp [hpc] at hp,
        fun hd => by simp [hpc] at hd⟩
  | handleErrorOk rest w rec0 hr hpc ht =>
      have hrest : rest = [] := rest_nil_of_len_le_one rest w (hr ▸ inv.oneUnit)
      subst hrest
      have huw : u = w := by
        rw [hr] at hu
        simpa using hu
      subst huw
      refine ⟨fun hp => by simp [hpc] at hp, fun p hp => by simp [hpc] at hp, ?_⟩
      intro _ habs
      rw [ht] at habs
      cases habs
  | handleErrorGone rest w hr hpc ht =>
      have hrest : rest = [] := rest_nil_of_len_le_one rest w (hr ▸ inv.oneUnit)
      subst hrest
      have huw : u = w := by
        rw [hr] at hu
        simpa using hu
      subst huw
      exact ⟨fun hp => by simp [hpc] at hp, fun p hp => by simp [hpc] at hp,
        fun _ _ => rfl⟩

/-- State of the C6 witness trace with a dispatch unit at its initial
lookup for a task already removed. -/
def sC6a : SchedState :=
  ⟨1, [], [⟨t1, 1, 1, [], some 1⟩], [], [⟨0, t1, 1, .readTask⟩], false, false⟩

/-- Successor of sC6a after the absent-task return. -/
def sC6b : SchedState :=
  ⟨1, [], [⟨t1, 1, 2, [], some 1⟩], [], [], true, false⟩

/-- Witness for c6_amended at a concrete trace where the dispatch begins
after the removal and returns with no effect. -/
theorem c6_amended_witness :
    dictGet (dictPop sC6a.tasks t1).1 t1 = none ∧
    ((⟨0, t1, 1, .readTask⟩ : DUnit).pc = .readTask →
        dictGet sC6a.tasks (⟨0, t1, 1, .readTask⟩ : DUnit).taskId = none →
        sC6b.tasks = sC6a.tasks ∧ sC6b.results = sC6a.results ∧
        sC6b.crashed = false) ∧
    (∀ p, (⟨0, t1, 1, .readTask⟩ : DUnit).pc = .storeResult p →
        sC6b.results = sC6a.results ++
          [((⟨0, t1, 1, .readTask⟩ : DUnit).taskId, sC6a.now, p)]) ∧
    ((⟨0, t1, 1, .readTask⟩ : DUnit).pc = .handleError →
        dictGet sC6a.tasks (⟨0, t1, 1, .readTask⟩ : DUnit).taskId = none →
        sC6b.crashed = true) := by
  have hre : SchedReach env7 sC6a :=
    SchedReach.step _ _
      (SchedReach.step _ _
        (SchedReach.step _ _
          (SchedReach.step _ _ SchedReach.init
            (SchedStep.addTask _ t1 cfgSec1 1 (by decide)))
          (SchedStep.removeTask _ t1 (by decide)))
        (SchedStep.tick _))
      (SchedStep.beginJob _ 0 ⟨t1, 1, 1, [], none⟩ (by decide) (by decide) (by decide))
  exact c6_amended env7 sC6a sC6b ⟨0, t1, 1, .readTask⟩ t1 hre
    (SchedStep.readTaskAbsent sC6a [] ⟨0, t1, 1, .readTask⟩ rfl rfl rfl)
    (by decide) (by decide)

/-! ## Registry lemmas shared by the session-registry claims -/

theorem keys_dictInsert_of_get {α : Type} (l : List (String × α)) (k : String) (v w : α)
    (h : dictGet l k = some w) :
    (dictInsert l k v).map Prod.fst = l.map Prod.fst := by
  induction l with
  | nil => cases h
  | cons hd tl ih =>
      obtain ⟨k0, v0⟩ := hd
      by_cases hk : k0 = k
      · subst hk
        simp [dictInsert]
      · have h2 : dictGet tl k = some w := by
          simpa [dictGet, hk] using h
        simp [dictInsert, hk, ih h2]

theorem sshDisconnect_active (st : RegState) (cid : String) (b : Bool) :
    ((sshDisconnect st cid b).1).active = (dictPop st.active cid).1 := by
  simp only [sshDisconnect]
  cases hp : (dictPop st.active cid).2 with
  | none => simp [hp]
  | some c => cases b <;> simp [hp]

theorem sshDisconnect_absent (st : RegState) (cid : String) (b : Bool)
    (h : dictGet st.active cid = none) : (sshDisconnect st cid b).2 = false := by
  have h2 : (dictPop st.active cid).2 = none := by rw [dictPop_snd]; exact h
  simp [sshDisconnect, h2]

theorem sshDisconnect_raises (st : RegState) (cid : String) :
    (sshDisconnect st cid true).2 = false := by
  simp only [sshDisconnect]
  cases hp : (dictPop st.active cid).2 with
  | none => simp [hp]
  | some c => simp [hp]

theorem disconnectRoute_absent (st : RegState) (cid : String) (b : Bool)
    (h : dictGet st.active cid = none) :
    disconnectRoute st ⟨some cid⟩ b =
      ((sshDisconnect st cid b).1, 404, .errBody msgConnNotFound) := by
  have h2 : (dictPop st.active cid).2 = none := by rw [dictPop_snd]; exact h
  simp [disconnectRoute, sshDisconnect, h2]

theorem netmikoDisconnect_active (st : NetmikoState) (cid : String) (b : Bool) :
    ((netmikoDisconnect st cid b).1).active = (dictPop st.active cid).1 := by
  simp only [netmikoDisconnect]
  cases hp : (dictPop st.active cid).2 with
  | none => simp [hp]
  | some c => cases b <;> simp [hp]

theorem netmikoDisconnect_absent (st : NetmikoState) (cid : String) (b : Bool)
    (h : dictGet st.active cid = none) : (netmikoDisconnect st cid b).2 = false := by
  have h2 : (dictPop st.active cid).2 = none := by rw [dictPop_snd]; exact h
  simp [netmikoDisconnect, h2]

theorem netmikoDisconnect_raises (st : NetmikoState) (cid : String) :
    (netmikoDisconnect st cid true).2 = false := by
  simp only [netmikoDisconnect]
  cases hp : (dictPop st.active cid).2 with
  | none => simp [hp]
  | some c => simp [hp]

/-! ## Claim C3 -/

def hh : String := "h"
def uu : String := "u"
def pw : String := "pw"
def key1 : String := "h:22:u"

/-- The connection key built by NetmikoSSHCollector.connect, line 56:
host:port:username:device_type, with the defaulted port and device type. -/
def netmikoKey (req : NetmikoReq) : String :=
  ((req.host).getD "") ++ ":" ++ toString ((req.port).getD 22) ++ ":" ++
    ((req.username).getD "") ++ ":" ++ ((req.device_type).getD defaultDeviceType)

/-- A netmiko connect request used in the C3 scenario; its connection key
is h:22:u:cisco_ios. -/
def nreqC3 : NetmikoReq := ⟨none, some hh, some 22, some uu, some pw⟩

def nkeyC3 : String := "h:22:u:cisco_ios"

/-- C3 counterexample: two successful connects under the same key, against
both collectors.  After the second connect each registry maps the key to
the fresh handle 1 while the superseded handle 0 was never closed (the
closed list stays empty): SSHCollector.connect and
NetmikoSSHCollector.connect both overwrite the dict entry under the lock
without ever calling close (or disconnect) on the previous protocol
object, so the superseded handle is leaked, not closed before the new
session becomes visible. -/
theorem c3_counterexample :
    ((sshConnect emptyReg hh 22 uu .ok).1).active = [(key1, 0)] ∧
    dictGet ((sshConnect ((sshConnect emptyReg hh 22 uu .ok).1)
        hh 22 uu .ok).1).active key1 = some 1 ∧
    ((sshConnect ((sshConnect emptyReg hh 22 uu .ok).1) hh 22 uu .ok).1).closed
      = [] ∧
    ((netmikoConnect emptyNetmiko nreqC3 0 .ok).1).active =
      [(nkeyC3, ⟨0, nreqC3, 0⟩)] ∧
    dictGet ((netmikoConnect ((netmikoConnect emptyNetmiko nreqC3 0 .ok).1)
        nreqC3 0 .ok).1).active nkeyC3 = some ⟨1, nreqC3, 0⟩ ∧
    ((netmikoConnect ((netmikoConnect emptyNetmiko nreqC3 0 .ok).1)
        nreqC3 0 .ok).1).closed = [] := by decide

/-- C3 amended: a connection_key still identifies at most one live session
at any instant — in both collectors the registry is a dict, its keys stay
pairwise distinct across a replacing connect, and Lookup returns only the
new handle after the replacement — but the superseded handle is NOT closed
before the new session becomes visible: in the ssh collector and in the
netmiko collector alike, connect leaves the closed set untouched, so the
replaced handle is leaked (still unclosed) rather than closed. -/
theorem c3_amended (st : RegState) (host : String) (port : Nat) (username : String)
    (oldh : Nat) (nst : NetmikoState) (nreq : NetmikoReq) (nnow : Nat)
    (olde : NetmikoEntry)
    (hnodup : (st.active.map Prod.fst).Nodup)
    (hold : dictGet st.active (host ++ ":" ++ toString port ++ ":" ++ username) =
      some oldh)
    (hnodupN : (nst.active.map Prod.fst).Nodup)
    (holdN : dictGet nst.active (netmikoKey nreq) = some olde) :
    dictGet ((sshConnect st host port username .ok).1).active
        (host ++ ":" ++ toString port ++ ":" ++ username) = some st.nextHandle ∧
    ((sshConnect st host port username .ok).1).closed = st.closed ∧
    (((sshConnect st host port username .ok).1).active.map Prod.fst).Nodup ∧
    ((sshConnect st host port username .ok).1).active.map Prod.fst =
      st.active.map Prod.fst ∧
    dictGet ((netmikoConnect nst nreq nnow .ok).1).active (netmikoKey nreq) =
      some ⟨nst.nextHandle, nreq, nnow⟩ ∧
    ((netmikoConnect nst nreq nnow .ok).1).closed = nst.closed ∧
    (((netmikoConnect nst nreq nnow .ok).1).active.map Prod.fst).Nodup ∧
    ((netmikoConnect nst nreq nnow .ok).1).active.map Prod.fst =
      nst.active.map Prod.fst := by
  refine ⟨?_, rfl, ?_, ?_, ?_, rfl, ?_, ?_⟩
  · exact dictGet_insert_self st.active
      (host ++ ":" ++ toString port ++ ":" ++ username) st.nextHandle
  · exact nodup_keys_dictInsert st.active
      (host ++ ":" ++ toString port ++ ":" ++ username) st.nextHandle hnodup
  · exact keys_dictInsert_of_get st.active
      (host ++ ":" ++ toString port ++ ":" ++ username) st.nextHandle oldh hold
  · exact dictGet_insert_self nst.active (netmikoKey nreq)
      ⟨nst.nextHandle, nreq, nnow⟩
  · exact nodup_keys_dictInsert nst.active (netmikoKey nreq)
      ⟨nst.nextHandle, nreq, nnow⟩ hnodupN
  · exact keys_dictInsert_of_get nst.active (netmikoKey nreq)
      ⟨nst.nextHandle, nreq, nnow⟩ olde holdN

/-- Witness for c3_amended at one-session registries of both collectors. -/
theorem c3_amended_witness :
    dictGet ((sshConnect (⟨[(key1, 0)], 1, []⟩ : RegState) hh 22 uu .ok).1).active
        (hh ++ ":" ++ toString 22 ++ ":" ++ uu) =
      some (⟨[(key1, 0)], 1, []⟩ : RegState).nextHandle ∧
    ((sshConnect (⟨[(key1, 0)], 1, []⟩ : RegState) hh 22 uu .ok).1).closed =
      (⟨[(key1, 0)], 1, []⟩ : RegState).closed ∧
    (((sshConnect (⟨[(key1, 0)], 1, []⟩ : RegState) hh 22 uu .ok).1).active.map
        Prod.fst).Nodup ∧
    ((sshConnect (⟨[(key1, 0)], 1, []⟩ : RegState) hh 22 uu .ok).1).active.map
        Prod.fst =
      (⟨[(key1, 0)], 1, []⟩ : RegState).active.map Prod.fst ∧
    dictGet ((netmikoConnect (⟨[(nkeyC3, ⟨0, nreqC3, 0⟩)], 1, []⟩ : NetmikoState)
        nreqC3 0 .ok).1).active (netmikoKey nreqC3) =
      some ⟨(⟨[(nkeyC3, ⟨0, nreqC3, 0⟩)], 1, []⟩ : NetmikoState).nextHandle,
        nreqC3, 0⟩ ∧
    ((netmikoConnect (⟨[(nkeyC3, ⟨0, nreqC3, 0⟩)], 1, []⟩ : NetmikoState)
        nreqC3 0 .ok).1).closed =
      (⟨[(nkeyC3, ⟨0, nreqC3, 0⟩)], 1, []⟩ : NetmikoState).closed ∧
    (((netmikoConnect (⟨[(nkeyC3, ⟨0, nreqC3, 0⟩)], 1, []⟩ : NetmikoState)
        nreqC3 0 .ok).1).active.map Prod.fst).Nodup ∧
    ((netmikoConnect (⟨[(nkeyC3, ⟨0, nreqC3, 0⟩)], 1, []⟩ : NetmikoState)
        nreqC3 0 .ok).1).active.map Prod.fst =
      (⟨[(nkeyC3, ⟨0, nreqC3, 0⟩)], 1, []⟩ : NetmikoState).active.map Prod.fst :=
  c3_amended ⟨[(key1, 0)], 1, []⟩ hh 22 uu 0
    ⟨[(nkeyC3, ⟨0, nreqC3, 0⟩)], 1, []⟩ nreqC3 0 ⟨0, nreqC3, 0⟩
    (by decide) (by decide) (by decide) (by decide)

/-! ## Claim C5 -/

def cmdEcho : String := "echo hello"
def reqConnC5 : ConnectReq := ⟨some hh, some 22, some uu, some pw, none⟩
def execReqC5 : ExecuteReq := ⟨some key1, some cmdEcho⟩
def discReqC5 : DisconnectReq := ⟨some key1⟩
def resC5 : CmdResult := ⟨"out", "", 0⟩
def stC5a : RegState := (connectRoute emptyReg reqConnC5 .ok).1
def stC5b : RegState := (disconnectRoute stC5a discReqC5 false).1

/-- C5 counterexample: a full Connect, Execute, Disconnect sequence on one
key succeeds (all HTTP 200); the subsequent Execute on the same key fails
with the Connection-not-found error, but the execute endpoint surfaces it
with HTTP status 500, because lines 144-145 map every executor error to
500 — not the 404 the claim requires for an unknown connection. -/
theorem c5_counterexample :
    (connectRoute emptyReg reqConnC5 .ok).2.1 = 200 ∧
    (executeRoute stC5a execReqC5 (.ok resC5)).1 = 200 ∧
    (disconnectRoute stC5a discReqC5 false).2.1 = 200 ∧
    executeRoute stC5b execReqC5 (.ok resC5) = (500, .errBody msgConnNotFound) ∧
    (500 : Nat) ≠ 404 := by decide

/-- C5 amended: after Disconnect on a key, the key is absent from the
registry and a subsequent Execute on it is rejected with the
Connection-not-found error — never a success and with the session gone —
but the error is surfaced over HTTP as status 500 with that message (the
execute endpoint reports every collector error as 500; only the disconnect
endpoint answers 404 for an unknown key). -/
theorem c5_amended (st : RegState) (cid cmd : String) (b : Bool) (oc : ExecOutcome)
    (hnodup : (st.active.map Prod.fst).Nodup) :
    dictGet ((sshDisconnect st cid b).1).active cid = none ∧
    execute_command (sshDisconnect st cid b).1 cid oc = .error msgConnNotFound ∧
    executeRoute (sshDisconnect st cid b).1 ⟨some cid, some cmd⟩ oc =
      (500, .errBody msgConnNotFound) := by
  have h1 : dictGet ((sshDisconnect st cid b).1).active cid = none := by
    rw [sshDisconnect_active]
    exact dictGet_pop_self_of_nodup _ _ hnodup
  refine ⟨h1, ?_, ?_⟩
  · simp [execute_command, h1]
  · simp [executeRoute, execute_command, h1]

/-- Witness for c5_amended after the concrete connect of the C5 scenario. -/
theorem c5_amended_witness :
    dictGet ((sshDisconnect stC5a key1 false).1).active key1 = none ∧
    execute_command (sshDisconnect stC5a key1 false).1 key1 (.ok resC5) =
      .error msgConnNotFound ∧
    executeRoute (sshDisconnect stC5a key1 false).1 ⟨some key1, some cmdEcho⟩
        (.ok resC5) = (500, .errBody msgConnNotFound) :=
  c5_amended stC5a key1 cmdEcho false (.ok resC5) (by decide)

/-! ## Claim C7 -/

/-- C7: gateway forwarding.  An unregistered service name yields the 404
service-not-found reply with NO outbound request issued; for a registered
name exactly one request is issued against the backend with the fixed
30-second timeout, and a raised RequestException (unreachable, timed out)
yields the 503 unavailable reply while a backend response is passed
through with its status code and JSON body unchanged. -/
theorem c7_forward (service_name path : String) (backend : IssuedReq → BackendReply)
    (c : Nat) (bd : GwBody) :
    (dictGet SERVICES service_name = none →
      proxy_request service_name path backend =
        ((404, .errMsg ("Service " ++ service_name ++ " not found")), [])) ∧
    (∀ base, dictGet SERVICES service_name = some base →
      (backend ⟨base ++ "/" ++ path, 30⟩ = .raiseExn →
        proxy_request service_name path backend =
          ((503, .errMsg ("Service " ++ service_name ++ " unavailable")),
            [⟨base ++ "/" ++ path, 30⟩])) ∧
      (backend ⟨base ++ "/" ++ path, 30⟩ = .reply c bd →
        proxy_request service_name path backend =
          ((c, bd), [⟨base ++ "/" ++ path, 30⟩]))) := by
  constructor
  · intro h
    simp [proxy_request, h]
  · intro base hb
    constructor
    · intro hex
      simp [proxy_request, hb, hex]
    · intro hre
      simp [proxy_request, hb, hre]

def svcSsh : String := "ssh"
def pathExec : String := "execute"

/-- A backend oracle for the c7 witness: every request raises a
RequestException (service down). -/
def backendDown : IssuedReq → BackendReply := fun _ => BackendReply.raiseExn

/-- Witness for c7_forward at the registered ssh service with the backend
down. -/
theorem c7_forward_witness :
    (dictGet SERVICES svcSsh = none →
      proxy_request svcSsh pathExec backendDown =
        ((404, .errMsg ("Service " ++ svcSsh ++ " not found")), [])) ∧
    (∀ base, dictGet SERVICES svcSsh = some base →
      (backendDown ⟨base ++ "/" ++ pathExec, 30⟩ = .raiseExn →
        proxy_request svcSsh pathExec backendDown =
          ((503, .errMsg ("Service " ++ svcSsh ++ " unavailable")),
            [⟨base ++ "/" ++ pathExec, 30⟩])) ∧
      (backendDown ⟨base ++ "/" ++ pathExec, 30⟩ = .reply 200 (.json 0) →
        proxy_request svcSsh pathExec backendDown =
          ((200, .json 0), [⟨base ++ "/" ++ pathExec, 30⟩]))) :=
  c7_forward svcSsh pathExec backendDown 200 (.json 0)

/-! ## Claim C8 -/

def passwordStr : String := "password"
def reqNoPw : ConnectReq := ⟨some hh, some 22, some uu, none, none⟩
def nreqNoPw : NetmikoReq := ⟨none, some hh, some 22, some uu, none⟩

/-- C8 counterexample: POST /connect with the password field missing.  The
ssh collector answers 400 and creates no registry entry, but its body is
the fixed string Missing required fields, which does not name the missing
password field (it contains no field name at all). -/
theorem c8_counterexample :
    connectRoute emptyReg reqNoPw .ok = (emptyReg, 400, .errBody msgMissingFields) ∧
    strContainsSub msgMissingFields passwordStr = false := by decide

/-- C8 amended: a connect request missing the password field is rejected
with HTTP 400 and the registry is left unchanged (no entry created), but
the 400 body does not specifically name the missing field: the ssh
collector answers the generic Missing required fields (naming nothing),
and the netmiko collector answers a fixed list of all its required fields
regardless of which one is missing. -/
theorem c8_amended (st : RegState) (req : ConnectReq) (oc : ConnectOutcome)
    (nst : NetmikoState) (nreq : NetmikoReq) (nnow : Nat)
    (noc : NetmikoConnectOutcome)
    (h : req.password = none) (hn : nreq.password = none) :
    connectRoute st req oc = (st, 400, .errBody msgMissingFields) ∧
    strContainsSub msgMissingFields passwordStr = false ∧
    netmikoConnectRoute nst nreq nnow noc =
      (nst, 400, .errBody msgMissingNetmikoFields) := by
  refine ⟨?_, by decide, ?_⟩
  · obtain ⟨f1, f2, f3, f4, f5⟩ := req
    dsimp only at h
    subst h
    cases f1 <;> cases f2 <;> cases f3 <;> rfl
  · obtain ⟨g1, g2, g3, g4, g5⟩ := nreq
    dsimp only at hn
    subst hn
    cases g2 <;> cases g4 <;> rfl

/-- Witness for c8_amended at the concrete missing-password request. -/
theorem c8_amended_witness :
    connectRoute emptyReg reqNoPw .ok = (emptyReg, 400, .errBody msgMissingFields) ∧
    strContainsSub msgMissingFields passwordStr = false ∧
    netmikoConnectRoute emptyNetmiko nreqNoPw 0 .ok =
      (emptyNetmiko, 400, .errBody msgMissingNetmikoFields) :=
  c8_amended emptyReg reqNoPw .ok emptyNetmiko nreqNoPw 0 .ok rfl rfl

/-! ## Claim C9 -/

/-- C9: Disconnect removes the registry entry before attempting to close
the protocol handle, in both the ssh and the netmiko collector.  After a
Disconnect the key is absent from the registry no matter whether close
raised; a retried Disconnect returns false, and over HTTP yields 404
Connection not found; a Disconnect whose close raises returns false; a
Disconnect on an absent key returns false.  The embedding of disconnect is
a total function, so no exception propagates out of it in any case. -/
theorem c9_disconnect (st : RegState) (nst : NetmikoState) (cid : String)
    (b b2 : Bool)
    (hnodup : (st.active.map Prod.fst).Nodup)
    (hnodupN : (nst.active.map Prod.fst).Nodup) :
    dictGet ((sshDisconnect st cid b).1).active cid = none ∧
    (sshDisconnect ((sshDisconnect st cid b).1) cid b2).2 = false ∧
    (disconnectRoute ((sshDisconnect st cid b).1) ⟨some cid⟩ b2).2.1 = 404 ∧
    (b = true → (sshDisconnect st cid b).2 = false) ∧
    (dictGet st.active cid = none → (sshDisconnect st cid b).2 = false) ∧
    dictGet ((netmikoDisconnect nst cid b).1).active cid = none ∧
    (netmikoDisconnect ((netmikoDisconnect nst cid b).1) cid b2).2 = false ∧
    (b = true → (netmikoDisconnect nst cid b).2 = false) ∧
    (dictGet nst.active cid = none → (netmikoDisconnect nst cid b).2 = false) := by
  have h1 : dictGet ((sshDisconnect st cid b).1).active cid = none := by
    rw [sshDisconnect_active]
    exact dictGet_pop_self_of_nodup _ _ hnodup
  have h1n : dictGet ((netmikoDisconnect nst cid b).1).active cid = none := by
    rw [netmikoDisconnect_active]
    exact dictGet_pop_self_of_nodup _ _ hnodupN
  refine ⟨h1, sshDisconnect_absent _ _ _ h1, ?_, ?_, fun ha => sshDisconnect_absent _ _ _ ha,
    h1n, netmikoDisconnect_absent _ _ _ h1n, ?_,
    fun ha => netmikoDisconnect_absent _ _ _ ha⟩
  · rw [disconnectRoute_absent _ _ _ h1]
  · intro hb
    rw [hb]
    exact sshDisconnect_raises _ _
  · intro hb
    rw [hb]
    exact netmikoDisconnect_raises _ _

/-- Witness for c9_disconnect at concrete one-entry registries with a
raising close. -/
theorem c9_disconnect_witness :
    dictGet ((sshDisconnect (⟨[(key1, 0)], 1, []⟩ : RegState) key1 true).1).active
      key1 = none ∧
    (sshDisconnect ((sshDisconnect (⟨[(key1, 0)], 1, []⟩ : RegState) key1 true).1)
      key1 false).2 = false ∧
    (disconnectRoute ((sshDisconnect (⟨[(key1, 0)], 1, []⟩ : RegState) key1 true).1)
      ⟨some key1⟩ false).2.1 = 404 ∧
    (true = true →
      (sshDisconnect (⟨[(key1, 0)], 1, []⟩ : RegState) key1 true).2 = false) ∧
    (dictGet (⟨[(key1, 0)], 1, []⟩ : RegState).active key1 = none →
      (sshDisconnect (⟨[(key1, 0)], 1, []⟩ : RegState) key1 true).2 = false) ∧
    dictGet ((netmikoDisconnect (⟨[(key1, ⟨0, nreqNoPw, 0⟩)], 1, []⟩ : NetmikoState)
      key1 true).1).active key1 = none ∧
    (netmikoDisconnect ((netmikoDisconnect
      (⟨[(key1, ⟨0, nreqNoPw, 0⟩)], 1, []⟩ : NetmikoState) key1 true).1)
      key1 false).2 = false ∧
    (true = true →
      (netmikoDisconnect (⟨[(key1, ⟨0, nreqNoPw, 0⟩)], 1, []⟩ : NetmikoState)
        key1 true).2 = false) ∧
    (dictGet (⟨[(key1, ⟨0, nreqNoPw, 0⟩)], 1, []⟩ : NetmikoState).active key1 = none →
      (netmikoDisconnect (⟨[(key1, ⟨0, nreqNoPw, 0⟩)], 1, []⟩ : NetmikoState)
        key1 true).2 = false) :=
  c9_disconnect ⟨[(key1, 0)], 1, []⟩ ⟨[(key1, ⟨0, nreqNoPw, 0⟩)], 1, []⟩ key1
    true false (by decide) (by decide)

/-! ## Claim C10 -/

/-- Shape of a well-formed batch_collect output entry for its originating
config: it carries the config, exactly one of a result payload or an error
string, and an unknown operation always yields the Unknown-operation error
entry. -/
def entryOk (c : SnmpConfig) (e : BatchEntry) : Prop :=
  e.config = c ∧
  ((e.result.isSome ∧ e.error = none) ∨ (e.result = none ∧ e.error.isSome)) ∧
  (¬ (snmpOp c = opGet ∨ snmpOp c = opWalk) →
      e.error = some ("Unknown operation: " ++ snmpOp c))

def commStr : String := "public"
def oidStr : String := "1.3.6.1"
def opFoo : String := "foo"

/-- Oracle for the SNMP network: every get or walk succeeds with payload 3. -/
def envSnmp : SnmpConfig → SnmpOutcome := fun _ => SnmpOutcome.ok 3

/-- A get config with no host field. -/
def cfgNoHost : SnmpConfig := ⟨some opGet, none, some commStr, some oidStr, none, none⟩

/-- C10 counterexample: a config list whose (single) get config has no host
key makes batch_collect raise a KeyError (config subscript at line 116)
instead of returning a results list — so for this input there is no results
list with one entry per config at all; Flask surfaces the exception as
HTTP 500. -/
theorem c10_counterexample :
    batch_collect envSnmp [cfgNoHost] = .error msgKeyErrorHost := rfl

/-- C10 amended: for every config list in which each config whose operation
(defaulting to get) is get or walk carries host, community and oid keys,
batch_collect returns a results list with exactly one entry per input
config, in input order, each entry carrying its originating config and
exactly one of a result payload or an error string, with an unknown
operation value producing an error entry rather than an exception.  A
get/walk config missing one of those keys instead raises a KeyError
(surfaced as HTTP 500). -/
theorem c10_amended (env : SnmpConfig → SnmpOutcome) (configs : List SnmpConfig)
    (h : ∀ c ∈ configs, (snmpOp c = opGet ∨ snmpOp c = opWalk) →
        c.host.isSome ∧ c.community.isSome ∧ c.oid.isSome) :
    ∃ l, batch_collect env configs = .ok l ∧
      l.length = configs.length ∧ List.Forall₂ entryOk configs l := by
  induction configs with
  | nil => exact ⟨[], rfl, rfl, List.Forall₂.nil⟩
  | cons c rest ih =>
      obtain ⟨l, hl, hlen, hfa⟩ := ih (fun c0 hc0 => h c0 (List.mem_cons_of_mem _ hc0))
      by_cases hop : snmpOp c = opGet ∨ snmpOp c = opWalk
      · obtain ⟨hh0, hc0, ho0⟩ := h c (List.mem_cons_self _ _) hop
        obtain ⟨hv, hveq⟩ := Option.isSome_iff_exists.mp hh0
        obtain ⟨cv, hcveq⟩ := Option.isSome_iff_exists.mp hc0
        obtain ⟨ov, hoveq⟩ := Option.isSome_iff_exists.mp ho0
        cases henv : env c with
        | ok p =>
            refine ⟨⟨c, some p, none⟩ :: l, ?_, by simp [hlen], ?_⟩
            · simp only [batch_collect]
              rw [if_pos hop, hveq, hcveq, hoveq, henv, hl]
              rfl
            · exact List.Forall₂.cons
                ⟨rfl, Or.inl ⟨rfl, rfl⟩, fun hn => absurd hop hn⟩ hfa
        | err e =>
            refine ⟨⟨c, none, some e⟩ :: l, ?_, by simp [hlen], ?_⟩
            · simp only [batch_collect]
              rw [if_pos hop, hveq, hcveq, hoveq, henv, hl]
              rfl
            · exact List.Forall₂.cons
                ⟨rfl, Or.inr ⟨rfl, rfl⟩, fun hn => absurd hop hn⟩ hfa
      · refine ⟨⟨c, none, some ("Unknown operation: " ++ snmpOp c)⟩ :: l, ?_,
          by simp [hlen], ?_⟩
        · simp only [batch_collect]
          rw [if_neg hop, hl]
          rfl
        · exact List.Forall₂.cons ⟨rfl, Or.inr ⟨rfl, rfl⟩, fun _ => rfl⟩ hfa

/-- A well-formed get config. -/
def cfgGetW : SnmpConfig := ⟨some opGet, some hh, some commStr, some oidStr, none, none⟩

/-- A config with an unknown operation. -/
def cfgBadOp : SnmpConfig := ⟨some opFoo, some hh, none, none, none, none⟩

/-- Witness for c10_amended at a two-config batch with one unknown
operation. -/
theorem c10_amended_witness :
    (∀ c ∈ [cfgGetW, cfgBadOp], (snmpOp c = opGet ∨ snmpOp c = opWalk) →
        c.host.isSome ∧ c.community.isSome ∧ c.oid.isSome) ∧
    ∃ l, batch_collect envSnmp [cfgGetW, cfgBadOp] = .ok l ∧
      l.length = [cfgGetW, cfgBadOp].length ∧
      List.Forall₂ entryOk [cfgGetW, cfgBadOp] l :=
  ⟨by decide, c10_amended envSnmp [cfgGetW, cfgBadOp] (by decide)⟩

end MPDC
